import Mathlib

/-!
Shallow embedding of the salesforce-mcp-server repository: src/client.py,
src/tools/opportunities.py, src/tools/accounts.py and
src/tools/business_analysis_tools.py.  JSON values produced by
`response.json()` are modelled by `JVal`; a raised Python exception is
modelled by `Except.error` carrying the exception type name
(`type(e).__name__`) and message.  Python floats are idealized as rationals.
-/

/-- PyError models a raised Python exception: `kind` is the type name and
`msg` is the message text. -/
structure PyError where
  kind : String
  msg : String
deriving DecidableEq

/-- JVal models a JSON value as returned by `response.json()`. -/
inductive JVal where
  | jnull
  | jbool (b : Bool)
  | jnum (q : ℚ)
  | jstr (s : String)
  | jarr (elems : List JVal)
  | jobj (fields : List (String × JVal))

/-- Python `v.get(key, default)`: on a dict it yields the stored value when
the key is present (even when that stored value is None) and the default
otherwise; on any non-dict value (None in particular) the attribute lookup
itself raises `AttributeError`. -/
def pyGetD (v : JVal) (key : String) (dflt : JVal) : Except PyError JVal :=
  match v with
  | .jobj fields => .ok ((fields.lookup key).getD dflt)
  | _ => .error ⟨"AttributeError", "object has no attribute get"⟩

/-- Python `v[key]` on a dict: `KeyError` when absent, `TypeError` on
non-dicts. -/
def pyIndex (v : JVal) (key : String) : Except PyError JVal :=
  match v with
  | .jobj fields =>
    match fields.lookup key with
    | some x => .ok x
    | none => .error ⟨"KeyError", key⟩
  | _ => .error ⟨"TypeError", "value is not subscriptable by a string"⟩

/-- Python truthiness of a JSON value. -/
def jTruthy : JVal → Bool
  | .jnull => false
  | .jbool b => b
  | .jnum q => q != 0
  | .jstr s => s != ""
  | .jarr l => !l.isEmpty
  | .jobj f => !f.isEmpty

/-- Python `a or b`. -/
def pyOr (a b : JVal) : JVal :=
  if jTruthy a then a else b

/-- Python `float(x)` restricted to the value shapes the modelled records
carry: numbers convert to themselves, booleans to 0/1; None and containers
raise `TypeError`.  Numeric-string coercion is not modelled; strings raise
`ValueError` as non-numeric strings do. -/
def pyFloat (v : JVal) : Except PyError ℚ :=
  match v with
  | .jnum q => .ok q
  | .jbool b => .ok (if b then 1 else 0)
  | .jstr _ => .error ⟨"ValueError", "could not convert string to float"⟩
  | _ => .error ⟨"TypeError", "float argument must be a number"⟩

/-- Python `str(x)` as used inside f-strings when building error messages. -/
def pyStr : JVal → String
  | .jnull => "None"
  | .jbool b => if b then "True" else "False"
  | .jnum q => toString q
  | .jstr s => s
  | .jarr _ => "[...]"
  | .jobj _ => "\x7b...\x7d"

/-- Python iteration `for x in v` over the shapes that appear here: a list
yields its elements, a dict yields its keys, scalars raise `TypeError`. -/
def pyList (v : JVal) : Except PyError (List JVal) :=
  match v with
  | .jarr l => .ok l
  | .jobj fields => .ok (fields.map (fun kv => .jstr kv.1))
  | _ => .error ⟨"TypeError", "object is not iterable"⟩

/-- JKey models a hashable Python dict key originating from a JSON scalar. -/
inductive JKey where
  | kNull
  | kBool (b : Bool)
  | kNum (q : ℚ)
  | kStr (s : String)
deriving DecidableEq

/-- Using a JSON value as a Python dict key: scalars are hashable, lists and
dicts raise `TypeError`. -/
def jvalKey : JVal → Except PyError JKey
  | .jnull => .ok .kNull
  | .jbool b => .ok (.kBool b)
  | .jnum q => .ok (.kNum q)
  | .jstr s => .ok (.kStr s)
  | _ => .error ⟨"TypeError", "unhashable type"⟩

/-- One entry of the `error_messages` list built in `execute_query`
(src/client.py lines 42-50): the message text, optionally suffixed with the
classification found in the error extensions. -/
def graphqlErrorMessage (e : JVal) : Except PyError String := do
  let message ← pyGetD e "message" (.jstr "Unknown GraphQL error")
  let extensions ← pyGetD e "extensions" (.jobj [])
  let classification ← pyGetD extensions "classification" (.jstr "")
  if jTruthy classification then
    pure (pyStr message ++ " (Classification: " ++ pyStr classification ++ ")")
  else
    pure (pyStr message)

/-- Sequencing of the `for error in data["errors"]` loop that accumulates
`error_messages`: the first raised exception aborts the loop. -/
def collectMessages : List JVal → Except PyError (List String)
  | [] => .ok []
  | x :: xs => do
    let y ← graphqlErrorMessage x
    let ys ← collectMessages xs
    pure (y :: ys)

/-- Body handling of a 2xx response inside `execute_query` (src/client.py
lines 38-56): `if data.get("errors"):` tests truthiness, i.e. a non-empty
errors array; on failure an `Exception` carrying the joined messages is
raised, otherwise the parsed body is returned unchanged. -/
def handle2xxBody (data : JVal) : Except PyError JVal := do
  let errs ← pyGetD data "errors" .jnull
  if jTruthy errs then do
    let errList ← pyList errs
    let msgs ← collectMessages errList
    .error ⟨"Exception", "GraphQL errors: " ++ String.intercalate "; " msgs⟩
  else
    pure data

/-- Outcome of the HTTP POST performed inside `execute_query`. -/
inductive HttpOutcome where
  | netError (e : PyError)
  | status (code : Nat) (body : JVal)

/-- SalesforceClient.execute_query (src/client.py lines 24-62): a network
failure re-raises the transport exception; `raise_for_status` turns a
non-2xx status into `Exception("API request failed: <code>")`; a 2xx body is
handled by `handle2xxBody`. -/
def execute_query (o : HttpOutcome) : Except PyError JVal :=
  match o with
  | .netError e => .error e
  | .status code body =>
    if 200 ≤ code ∧ code < 300 then handle2xxBody body
    else .error ⟨"Exception", "API request failed: " ++ toString code⟩

/-- C2: for every 2xx response whose body is a JSON object whose top-level
`errors` key is absent or holds a list, `execute_query` raises exactly when
that list is present and non-empty; with `errors: []` or no `errors` key it
returns the parsed body unchanged. -/
theorem execute_query_2xx_errors_iff (code : Nat) (fs : List (String × JVal))
    (h1 : 200 ≤ code) (h2 : code < 300)
    (h3 : fs.lookup "errors" = none ∨ ∃ l, fs.lookup "errors" = some (.jarr l)) :
    ((∃ e, execute_query (.status code (.jobj fs)) = .error e) ↔
      (∃ l, fs.lookup "errors" = some (.jarr l) ∧ l ≠ [])) ∧
    ((fs.lookup "errors" = none ∨ fs.lookup "errors" = some (.jarr [])) →
      execute_query (.status code (.jobj fs)) = .ok (.jobj fs)) := by
  have hcode : (200 ≤ code ∧ code < 300) = True := by
    simp [h1, h2]
  rcases h3 with h3 | ⟨l, h3⟩
  · constructor
    · simp [execute_query, hcode, handle2xxBody, pyGetD, h3, jTruthy, Bind.bind, Except.bind,
        pure, Except.pure]
    · intro _
      simp [execute_query, hcode, handle2xxBody, pyGetD, h3, jTruthy, Bind.bind, Except.bind,
        pure, Except.pure]
  · cases l with
    | nil =>
      constructor
      · simp [execute_query, hcode, handle2xxBody, pyGetD, h3, jTruthy, Bind.bind, Except.bind,
          pure, Except.pure]
      · intro _
        simp [execute_query, hcode, handle2xxBody, pyGetD, h3, jTruthy, Bind.bind, Except.bind,
          pure, Except.pure]
    | cons x xs =>
      constructor
      · constructor
        · intro _
          exact ⟨x :: xs, h3, List.cons_ne_nil x xs⟩
        · intro _
          cases hm : collectMessages (x :: xs) with
          | ok msgs =>
            exact ⟨⟨"Exception", "GraphQL errors: " ++ String.intercalate "; " msgs⟩,
              by simp [execute_query, hcode, handle2xxBody, pyGetD, h3, jTruthy,
                Bind.bind, Except.bind, pyList, hm]⟩
          | error e =>
            exact ⟨e, by simp [execute_query, hcode, handle2xxBody, pyGetD, h3, jTruthy,
              Bind.bind, Except.bind, pyList, hm]⟩
      · intro hcontra
        rcases hcontra with hc | hc <;> simp [h3] at hc

/-- Witness for the C2 theorem at concrete inputs: a 200 body with one error
object raises, and a 204 body without an `errors` key is returned. -/
theorem execute_query_2xx_errors_iff_witness :
    (∃ e, execute_query (.status 200 (.jobj [("errors", .jarr [.jobj []])])) = .error e) ∧
    execute_query (.status 204 (.jobj [("data", .jnull)])) = .ok (.jobj [("data", .jnull)]) :=
  ⟨(execute_query_2xx_errors_iff 200 [("errors", .jarr [.jobj []])] (by decide) (by decide)
      (Or.inr ⟨[.jobj []], rfl⟩)).1.mpr ⟨[.jobj []], rfl, List.cons_ne_nil _ _⟩,
   (execute_query_2xx_errors_iff 204 [("data", .jnull)] (by decide) (by decide)
      (Or.inl rfl)).2 (Or.inl rfl)⟩

/-- Modelled from the spec: the escaping the spec requires for string-valued
filters before interpolation (backslash-escaping quote and backslash), which
is absent from the code. -/
def escapeGraphQLString (s : String) : String :=
  String.mk (s.toList.flatMap (fun c => if c = '"' ∨ c = '\\' then ['\\', c] else [c]))

/-- Stage equality condition interpolated by `query_opportunities`
(src/tools/opportunities.py line 110). -/
def stageEqCondition (stage : String) : String :=
  "StageName: \x7b eq: \"" ++ stage ++ "\" \x7d"

/-- Stage exclusion condition interpolated by `sales_stage_analysis`
(src/tools/business_analysis_tools.py line 173). -/
def stageNeCondition (stage : String) : String :=
  "\x7b StageName: \x7b ne: \"" ++ stage ++ "\" \x7d \x7d"

/-- Industry WHERE clause interpolated by `query_accounts`
(src/tools/accounts.py lines 43-45). -/
def industryWhereClause (industry : String) : String :=
  "where: \x7b Industry: \x7b eq: \"" ++ industry ++ "\" \x7d \x7d"

/-- Variables dictionary the filtering tools pass to `execute_query`: they
call `execute_query(query)` with no variables at all
(src/tools/opportunities.py line 157, src/tools/accounts.py line 82,
src/tools/business_analysis_tools.py line 211). -/
def filterToolVariables : List (String × JVal) := []

/-- C4 counterexample: for the stage value `A"B` none of the three condition
builders produces the escaped interpolation the claim asserts, and no
variables dictionary carries the value either — the quote passes through
raw. -/
theorem filter_interpolation_not_escaped :
    stageEqCondition "A\"B" ≠
      "StageName: \x7b eq: \"" ++ escapeGraphQLString "A\"B" ++ "\" \x7d" ∧
    stageNeCondition "A\"B" ≠
      "\x7b StageName: \x7b ne: \"" ++ escapeGraphQLString "A\"B" ++ "\" \x7d \x7d" ∧
    industryWhereClause "A\"B" ≠
      "where: \x7b Industry: \x7b eq: \"" ++ escapeGraphQLString "A\"B" ++ "\" \x7d \x7d" ∧
    filterToolVariables = [] := by
  refine ⟨?_, ?_, ?_, rfl⟩ <;> decide

/-- C4 amended: every caller-supplied string filter value is concatenated
raw (unescaped, byte for byte) into the condition text, and the query is
sent with an empty variables dictionary, so nothing is bound. -/
theorem filter_interpolation_raw (s : String) :
    stageEqCondition s = "StageName: \x7b eq: \"" ++ s ++ "\" \x7d" ∧
    stageNeCondition s = "\x7b StageName: \x7b ne: \"" ++ s ++ "\" \x7d \x7d" ∧
    industryWhereClause s = "where: \x7b Industry: \x7b eq: \"" ++ s ++ "\" \x7d \x7d" ∧
    filterToolVariables = [] :=
  ⟨rfl, rfl, rfl, rfl⟩

/-- Extraction chain
`result.get("data", {}).get("uiapi", {}).get("query", {}).get(entity, {}).get("edges", [])`
shared by all query tools, followed by the iteration over the edges. -/
def edgesOf (entity : String) (r : JVal) : Except PyError (List JVal) := do
  let d ← pyGetD r "data" (.jobj [])
  let u ← pyGetD d "uiapi" (.jobj [])
  let q ← pyGetD u "query" (.jobj [])
  let o ← pyGetD q entity (.jobj [])
  let e ← pyGetD o "edges" (.jarr [])
  pyList e

/-- Per-edge `edge["node"]` access performed by the loops in src/client.py. -/
def collectNodes : List JVal → Except PyError (List JVal)
  | [] => .ok []
  | e :: es => do
    let n ← pyIndex e "node"
    let ns ← collectNodes es
    pure (n :: ns)

/-- Query document built by `SalesforceClient.search_opportunities`
(src/client.py lines 117-148): only `limit` is interpolated; there is no
WHERE clause. -/
def searchOpportunitiesDoc (limit : Nat) : String :=
  String.intercalate "\n" [
    "",
    "        query SearchOpportunities \x7b",
    "            uiapi \x7b",
    "                query \x7b",
    "                    Opportunity(",
    "                        first: " ++ toString limit,
    "                        orderBy: \x7b LastModifiedDate: \x7b order: DESC \x7d \x7d",
    "                    ) \x7b",
    "                        edges \x7b",
    "                            node \x7b",
    "                                Id",
    "                                Name \x7b value \x7d",
    "                                Amount \x7b value displayValue \x7d",
    "                                CloseDate \x7b value \x7d",
    "                                StageName \x7b value \x7d",
    "                                Probability \x7b value \x7d",
    "                                Account \x7b",
    "                                    Id",
    "                                    Name \x7b value \x7d",
    "                                \x7d",
    "                                Owner \x7b",
    "                                    Id",
    "                                    Name \x7b value \x7d",
    "                                \x7d",
    "                            \x7d",
    "                        \x7d",
    "                        totalCount",
    "                    \x7d",
    "                \x7d",
    "            \x7d",
    "        \x7d",
    "        "]

/-- Query document built by `SalesforceClient.search_accounts`
(src/client.py lines 248-273): only `limit` is interpolated; there is no
WHERE clause. -/
def searchAccountsDoc (limit : Nat) : String :=
  String.intercalate "\n" [
    "",
    "        query SearchAccounts \x7b",
    "            uiapi \x7b",
    "                query \x7b",
    "                    Account(",
    "                        first: " ++ toString limit,
    "                        orderBy: \x7b Name: \x7b order: ASC \x7d \x7d",
    "                    ) \x7b",
    "                        edges \x7b",
    "                            node \x7b",
    "                                Id",
    "                                Name \x7b value \x7d",
    "                                Type \x7b value \x7d",
    "                                Industry \x7b value \x7d",
    "                                AnnualRevenue \x7b value displayValue \x7d",
    "                                NumberOfEmployees \x7b value \x7d",
    "                                Phone \x7b value \x7d",
    "                                Website \x7b value \x7d",
    "                            \x7d",
    "                        \x7d",
    "                        totalCount",
    "                    \x7d",
    "                \x7d",
    "            \x7d",
    "        \x7d",
    "        "]

/-- SalesforceClient.search_opportunities (src/client.py lines 108-160):
despite accepting `stage` and `min_amount`, the method builds the query from
`limit` alone and returns the node list parsed from the response; exceptions
re-raise. -/
def search_opportunities (stage : Option String) (min_amount : Option ℚ)
    (limit : Nat) (resp : Except PyError JVal) :
    String × Except PyError (List JVal) :=
  (searchOpportunitiesDoc limit, do
    let r ← resp
    let edges ← edgesOf "Opportunity" r
    collectNodes edges)

/-- SalesforceClient.search_accounts (src/client.py lines 244-285): despite
accepting `industry`, the method builds the query from `limit` alone and
returns the node list parsed from the response; exceptions re-raise. -/
def search_accounts (industry : Option String) (limit : Nat)
    (resp : Except PyError JVal) : String × Except PyError (List JVal) :=
  (searchAccountsDoc limit, do
    let r ← resp
    let edges ← edgesOf "Account" r
    collectNodes edges)

/-- C8: the query document sent and the records returned by
`search_opportunities` are independent of `stage` and `min_amount`, and those
of `search_accounts` are independent of `industry` — given the same remote
response only `limit` matters. -/
theorem search_filters_ignored :
    (∀ (s1 s2 : Option String) (a1 a2 : Option ℚ) (limit : Nat)
      (resp : Except PyError JVal),
      search_opportunities s1 a1 limit resp = search_opportunities s2 a2 limit resp) ∧
    (∀ (i1 i2 : Option String) (limit : Nat) (resp : Except PyError JVal),
      search_accounts i1 limit resp = search_accounts i2 limit resp) :=
  ⟨fun _ _ _ _ _ _ => rfl, fun _ _ _ _ => rfl⟩

/-- WHERE clause built by `sales_stage_analysis`
(src/tools/business_analysis_tools.py lines 167-176): a condition is built
per excluded stage, but the clause is emitted only when there is exactly one
condition; with zero or several conditions the clause stays empty. -/
def salesStageWhere (exclude_stages : Option (List String)) : String :=
  match exclude_stages with
  | none => ""
  | some stages =>
    if stages.isEmpty then ""
    else
      match stages.map stageNeCondition with
      | [c] => "where: " ++ c
      | _ => ""

/-- Query document built by `sales_stage_analysis`
(src/tools/business_analysis_tools.py lines 178-209) around the computed
WHERE clause. -/
def salesStageQuery (whereClause : String) (limit : Nat) : String :=
  String.intercalate "\n" [
    "",
    "            query SalesStageAnalysis \x7b",
    "                uiapi \x7b",
    "                    query \x7b",
    "                        Opportunity(",
    "                            " ++ whereClause,
    "                            first: " ++ toString limit,
    "                            orderBy: \x7b Amount: \x7b order: DESC \x7d \x7d",
    "                        ) \x7b",
    "                            edges \x7b",
    "                                node \x7b",
    "                                    Id",
    "                                    Name \x7b value \x7d",
    "                                    Amount \x7b value displayValue \x7d",
    "                                    CloseDate \x7b value \x7d",
    "                                    StageName \x7b value \x7d",
    "                                    Probability \x7b value \x7d",
    "                                    Account \x7b",
    "                                        Name \x7b value \x7d",
    "                                        Industry \x7b value \x7d",
    "                                    \x7d",
    "                                    Owner \x7b",
    "                                        Name \x7b value \x7d",
    "                                    \x7d",
    "                                \x7d",
    "                            \x7d",
    "                            totalCount",
    "                        \x7d",
    "                    \x7d",
    "                \x7d",
    "            \x7d",
    "            "]

/-- C9: with two or more excluded stages the WHERE clause is empty — the
generated query equals the completely unfiltered one — while with exactly
one excluded stage the exclusion filter is applied. -/
theorem exclude_stages_only_single_applied :
    (∀ (stages : List String) (limit : Nat), 2 ≤ stages.length →
      salesStageWhere (some stages) = "" ∧
      salesStageQuery (salesStageWhere (some stages)) limit = salesStageQuery "" limit) ∧
    (∀ s : String, salesStageWhere (some [s]) = "where: " ++ stageNeCondition s) := by
  constructor
  · intro stages limit h
    match stages with
    | [] => simp at h
    | [a] => simp at h
    | a :: b :: rest => exact ⟨rfl, rfl⟩
  · intro s
    rfl

/-- Witness for the C9 theorem: excluding both closed stages yields an
unfiltered query. -/
theorem exclude_stages_only_single_applied_witness :
    salesStageWhere (some ["Closed Won", "Closed Lost"]) = "" ∧
    salesStageQuery (salesStageWhere (some ["Closed Won", "Closed Lost"])) 100 =
      salesStageQuery "" 100 :=
  exclude_stages_only_single_applied.1 ["Closed Won", "Closed Lost"] 100 (by decide)

/-- Calendar date (proleptic Gregorian), the date part of a Python
`datetime`. -/
structure Date where
  year : Nat
  month : Nat
  day : Nat
deriving DecidableEq

/-- Gregorian leap-year rule used by Python `datetime`. -/
def isLeap (y : Nat) : Bool :=
  (y % 4 == 0 && y % 100 != 0) || y % 400 == 0

/-- Length of a month in the Gregorian calendar. -/
def daysInMonth (y m : Nat) : Nat :=
  match m with
  | 2 => if isLeap y then 29 else 28
  | 4 | 6 | 9 | 11 => 30
  | _ => 31

/-- Validity of a calendar date (Python datetime accepts year ≥ 1). -/
def validDate (d : Date) : Prop :=
  1 ≤ d.year ∧ 1 ≤ d.month ∧ d.month ≤ 12 ∧ 1 ≤ d.day ∧
    d.day ≤ daysInMonth d.year d.month

instance (d : Date) : Decidable (validDate d) := by
  unfold validDate
  infer_instance

/-- Successor day, realizing `+ timedelta(days=1)`. -/
def nextDay (d : Date) : Date :=
  if d.day < daysInMonth d.year d.month then ⟨d.year, d.month, d.day + 1⟩
  else if d.month < 12 then ⟨d.year, d.month + 1, 1⟩
  else ⟨d.year + 1, 1, 1⟩

/-- Python `date + timedelta(days=n)`. -/
def addDays : Nat → Date → Date
  | 0, d => d
  | n + 1, d => addDays n (nextDay d)

/-- Predecessor day, realizing `- timedelta(days=1)`. -/
def prevDay (d : Date) : Date :=
  if 1 < d.day then ⟨d.year, d.month, d.day - 1⟩
  else if 1 < d.month then ⟨d.year, d.month - 1, daysInMonth d.year (d.month - 1)⟩
  else ⟨d.year - 1, 12, 31⟩

/-- Python `date - timedelta(days=n)`. -/
def subDays : Nat → Date → Date
  | 0, d => d
  | n + 1, d => subDays n (prevDay d)

/-- Python `d.replace(day=1)`. -/
def replaceDay1 (d : Date) : Date :=
  ⟨d.year, d.month, 1⟩

/-- Days in all years strictly before year `y` (proleptic Gregorian). -/
def daysBeforeYear (y : Nat) : Nat :=
  365 * (y - 1) + (y - 1) / 4 - (y - 1) / 100 + (y - 1) / 400

/-- Days in all months of year `y` strictly before month `m`. -/
def daysBeforeMonth (y m : Nat) : Nat :=
  ((List.range (m - 1)).map (fun i => daysInMonth y (i + 1))).sum

/-- Rata-die day number of a date; day 1 is 0001-01-01. -/
def rataDie (d : Date) : Nat :=
  daysBeforeYear d.year + daysBeforeMonth d.year d.month + d.day

/-- Python `d.weekday()`: Monday is 0.  0001-01-01 was a Monday. -/
def weekday (d : Date) : Nat :=
  (rataDie d + 6) % 7

/-- The DateRange enum of src/tools/opportunities.py lines 8-17. -/
inductive DateRange where
  | this_week
  | last_week
  | this_month
  | last_month
  | this_quarter
  | last_quarter
  | this_year
  | last_year
deriving DecidableEq

/-- get_date_range (src/tools/opportunities.py lines 19-56) with the
reference instant `now` injected in place of `datetime.now()`; it returns
the (start, end) date pair that the code then formats with
`strftime("%Y-%m-%d")`. -/
def get_date_range (range_type : DateRange) (now : Date) : Date × Date :=
  match range_type with
  | .this_week =>
    let start := subDays (weekday now) now
    (start, addDays 6 start)
  | .last_week =>
    let start := subDays (weekday now + 7) now
    (start, addDays 6 start)
  | .this_month =>
    let start := replaceDay1 now
    (start, prevDay (replaceDay1 (addDays 32 start)))
  | .last_month =>
    let endd := prevDay (replaceDay1 now)
    (replaceDay1 endd, endd)
  | .this_quarter =>
    let quarter := (now.month - 1) / 3 + 1
    let start : Date := ⟨now.year, (quarter - 1) * 3 + 1, 1⟩
    (start, prevDay (replaceDay1 (addDays 95 start)))
  | .last_quarter =>
    let quarter := (now.month - 1) / 3
    let start : Date :=
      if quarter = 0 then ⟨now.year - 1, 10, 1⟩
      else ⟨now.year, (quarter - 1) * 3 + 1, 1⟩
    (start, prevDay (replaceDay1 (addDays 95 start)))
  | .this_year =>
    (⟨now.year, 1, 1⟩, ⟨now.year, 12, 31⟩)
  | .last_year =>
    (⟨now.year - 1, 1, 1⟩, ⟨now.year - 1, 12, 31⟩)

/-- Python `str.lower()` over the ASCII names that occur here. -/
def pyLower (s : String) : String :=
  String.mk (s.toList.map Char.toLower)

/-- Python `str.replace(" ", "_")`: the pattern is a single character, so
the call replaces every space. -/
def underscoreSpaces (s : String) : String :=
  String.mk (s.toList.map (fun c => if c = ' ' then '_' else c))

/-- The normalization `time_period.lower().replace(" ", "_")` applied in
`query_opportunities` (src/tools/opportunities.py line 100). -/
def normalizePeriod (s : String) : String :=
  underscoreSpaces (pyLower s)

/-- Enum lookup `DateRange(value)`: `none` models the `ValueError` raised for
an unrecognized value. -/
def parsePeriod (s : String) : Option DateRange :=
  match normalizePeriod s with
  | "this_week" => some .this_week
  | "last_week" => some .last_week
  | "this_month" => some .this_month
  | "last_month" => some .last_month
  | "this_quarter" => some .this_quarter
  | "last_quarter" => some .last_quarter
  | "this_year" => some .this_year
  | "last_year" => some .last_year
  | _ => none

/-- The `valid_options` list surfaced by `query_opportunities`
(src/tools/opportunities.py line 106), in enum declaration order. -/
def validPeriodNames : List String :=
  ["this_week", "last_week", "this_month", "last_month",
   "this_quarter", "last_quarter", "this_year", "last_year"]

/-- Zero-padding used by `strftime("%Y-%m-%d")`. -/
def pad2 (n : Nat) : String :=
  if n < 10 then "0" ++ toString n else toString n

/-- Four-digit year padding used by `strftime("%Y-%m-%d")`. -/
def pad4 (n : Nat) : String :=
  if n < 10 then "000" ++ toString n
  else if n < 100 then "00" ++ toString n
  else if n < 1000 then "0" ++ toString n
  else toString n

/-- ISO date formatting `strftime("%Y-%m-%d")`. -/
def fmtDate (d : Date) : String :=
  pad4 d.year ++ "-" ++ pad2 d.month ++ "-" ++ pad2 d.day

/-- Date-range handling at the top of `query_opportunities`
(src/tools/opportunities.py lines 94-107): an empty `time_period` adds no
condition; an unparsable one returns the invalid-period payload with the
valid options; otherwise the CloseDate range condition is built from
`get_date_range`. -/
def periodCondition (time_period : String) (now : Date) :
    Except (String × List String) (List String) :=
  if time_period = "" then .ok []
  else
    match parsePeriod time_period with
    | none => .error ("Invalid time period: " ++ time_period, validPeriodNames)
    | some p =>
      let r := get_date_range p now
      .ok ["CloseDate: \x7b range: \x7b gte: \"" ++ fmtDate r.1 ++
           "\", lte: \"" ++ fmtDate r.2 ++ "\" \x7d \x7d"]

theorem daysInMonth_ge (y m : Nat) : 28 ≤ daysInMonth y m := by
  unfold daysInMonth
  split <;> first
    | omega
    | (split <;> omega)

theorem daysInMonth_le (y m : Nat) : daysInMonth y m ≤ 31 := by
  unfold daysInMonth
  split <;> first
    | omega
    | (split <;> omega)

theorem daysBeforeMonth_one (y : Nat) : daysBeforeMonth y 1 = 0 := rfl

theorem daysBeforeMonth_succ (y m : Nat) (hm : 1 ≤ m) :
    daysBeforeMonth y (m + 1) = daysBeforeMonth y m + daysInMonth y m := by
  unfold daysBeforeMonth
  rw [show m + 1 - 1 = (m - 1) + 1 by omega, List.range_succ, List.map_append,
    List.sum_append]
  simp [show m - 1 + 1 = m by omega]

theorem daysInYear_eq (y : Nat) :
    daysBeforeMonth y 12 + daysInMonth y 12 = if isLeap y then 366 else 365 := by
  have h : List.range 11 = [0, 1, 2, 3, 4, 5, 6, 7, 8, 9, 10] := rfl
  unfold daysBeforeMonth
  rw [show (12 : Nat) - 1 = 11 from rfl, h]
  cases hL : isLeap y <;> simp [daysInMonth, hL]

theorem isLeap_iff (y : Nat) :
    isLeap y = true ↔ ((y % 4 = 0 ∧ y % 100 ≠ 0) ∨ y % 400 = 0) := by
  simp [isLeap, Bool.or_eq_true, Bool.and_eq_true, beq_iff_eq, bne_iff_ne]

set_option maxHeartbeats 1000000 in
theorem daysBeforeYear_succ (y : Nat) (hy : 1 ≤ y) :
    daysBeforeYear (y + 1) = daysBeforeYear y + (if isLeap y then 366 else 365) := by
  have hiff := isLeap_iff y
  unfold daysBeforeYear
  by_cases hL : isLeap y = true
  · rw [if_pos hL]
    have hc := hiff.mp hL
    omega
  · rw [if_neg hL]
    have hc : ¬((y % 4 = 0 ∧ y % 100 ≠ 0) ∨ y % 400 = 0) := fun hc => hL (hiff.mpr hc)
    push_neg at hc
    omega

theorem validDate_mk (y m dd : Nat) :
    validDate ⟨y, m, dd⟩ ↔ 1 ≤ y ∧ 1 ≤ m ∧ m ≤ 12 ∧ 1 ≤ dd ∧ dd ≤ daysInMonth y m :=
  Iff.rfl

theorem rataDie_mk (y m dd : Nat) :
    rataDie ⟨y, m, dd⟩ = daysBeforeYear y + daysBeforeMonth y m + dd :=
  rfl

theorem nextDay_props (d : Date) (h : validDate d) :
    validDate (nextDay d) ∧ rataDie (nextDay d) = rataDie d + 1 := by
  obtain ⟨y, m, dd⟩ := d
  rw [validDate_mk] at h
  obtain ⟨hy, hm1, hm2, hd1, hd2⟩ := h
  unfold nextDay
  dsimp only
  split_ifs with h1 h2
  · rw [validDate_mk, rataDie_mk, rataDie_mk]
    refine ⟨⟨hy, hm1, hm2, by omega, by omega⟩, by omega⟩
  · have hge := daysInMonth_ge y (m + 1)
    have hsucc := daysBeforeMonth_succ y m hm1
    rw [validDate_mk, rataDie_mk, rataDie_mk]
    refine ⟨⟨hy, by omega, by omega, by omega, by omega⟩, by omega⟩
  · have hm12 : m = 12 := by omega
    subst hm12
    have hge := daysInMonth_ge (y + 1) 1
    have hone := daysBeforeMonth_one (y + 1)
    have hYL := daysInYear_eq y
    have hS := daysBeforeYear_succ y hy
    rw [validDate_mk, rataDie_mk, rataDie_mk]
    refine ⟨⟨by omega, by omega, by omega, by omega, by omega⟩, ?_⟩
    by_cases hL : isLeap y = true
    · rw [if_pos hL] at hYL hS
      omega
    · rw [if_neg hL] at hYL hS
      omega

theorem prevDay_props (d : Date) (h : validDate d) (h2 : 2 ≤ rataDie d) :
    validDate (prevDay d) ∧ rataDie (prevDay d) + 1 = rataDie d := by
  obtain ⟨y, m, dd⟩ := d
  rw [validDate_mk] at h
  rw [rataDie_mk] at h2
  obtain ⟨hy, hm1, hm2, hd1, hd2⟩ := h
  unfold prevDay
  dsimp only
  split_ifs with hb1 hb2
  · rw [validDate_mk, rataDie_mk, rataDie_mk]
    refine ⟨⟨hy, hm1, hm2, by omega, by omega⟩, by omega⟩
  · have hge := daysInMonth_ge y (m - 1)
    have hsucc := daysBeforeMonth_succ y (m - 1) (by omega)
    rw [show m - 1 + 1 = m by omega] at hsucc
    rw [validDate_mk, rataDie_mk, rataDie_mk]
    refine ⟨⟨hy, by omega, by omega, by omega, by omega⟩, by omega⟩
  · have hm' : m = 1 := by omega
    subst hm'
    have hdd : dd = 1 := by omega
    subst hdd
    rw [daysBeforeMonth_one] at h2
    have hdby : daysBeforeYear 1 = 0 := rfl
    have hy2 : 2 ≤ y := by
      by_contra hcon
      have hy1 : y = 1 := by omega
      subst hy1
      omega
    have hd31 : daysInMonth (y - 1) 12 = 31 := rfl
    have hYL := daysInYear_eq (y - 1)
    have hS := daysBeforeYear_succ (y - 1) (by omega)
    rw [show y - 1 + 1 = y by omega] at hS
    rw [validDate_mk, rataDie_mk, rataDie_mk, daysBeforeMonth_one]
    refine ⟨⟨by omega, by omega, by omega, by omega, by omega⟩, ?_⟩
    by_cases hL : isLeap (y - 1) = true
    · rw [if_pos hL] at hYL hS
      omega
    · rw [if_neg hL] at hYL hS
      omega

theorem addDays_props : ∀ (n : Nat) (d : Date), validDate d →
    validDate (addDays n d) ∧ rataDie (addDays n d) = rataDie d + n := by
  intro n
  induction n with
  | zero =>
    intro d h
    exact ⟨h, rfl⟩
  | succ k ih =>
    intro d h
    have hn := nextDay_props d h
    have hk := ih (nextDay d) hn.1
    refine ⟨hk.1, ?_⟩
    show rataDie (addDays k (nextDay d)) = rataDie d + (k + 1)
    rw [hk.2, hn.2]
    omega

theorem subDays_props : ∀ (n : Nat) (d : Date), validDate d → n + 1 ≤ rataDie d →
    validDate (subDays n d) ∧ rataDie (subDays n d) + n = rataDie d := by
  intro n
  induction n with
  | zero =>
    intro d h _
    exact ⟨h, rfl⟩
  | succ k ih =>
    intro d h hb
    have hp := prevDay_props d h (by omega)
    have hk := ih (prevDay d) hp.1 (by omega)
    refine ⟨hk.1, ?_⟩
    show rataDie (subDays k (prevDay d)) + (k + 1) = rataDie d
    omega

theorem weekday_lt (d : Date) : weekday d < 7 := by
  unfold weekday
  omega

theorem rataDie_pos (d : Date) (h : validDate d) : 1 ≤ rataDie d := by
  obtain ⟨y, m, dd⟩ := d
  rw [validDate_mk] at h
  rw [rataDie_mk]
  omega

theorem rataDie_year_ge_two (d : Date) (h : validDate d) (hy : 2 ≤ d.year) :
    366 ≤ rataDie d := by
  obtain ⟨y, m, dd⟩ := d
  rw [validDate_mk] at h
  have hy2 : 2 ≤ y := hy
  rw [rataDie_mk]
  have hb : 365 ≤ daysBeforeYear y := by
    unfold daysBeforeYear
    have hdiv : (y - 1) / 100 ≤ (y - 1) / 4 :=
      Nat.div_le_div_left (by norm_num) (by norm_num)
    omega
  omega

theorem endChain_props (n : Nat) (s : Date) (hs : validDate s) (hn : 31 ≤ n) :
    validDate (prevDay (replaceDay1 (addDays n s))) ∧
    rataDie s ≤ rataDie (prevDay (replaceDay1 (addDays n s))) := by
  have ha := addDays_props n s hs
  obtain ⟨hav, har⟩ := ha
  rcases hEq : addDays n s with ⟨xy, xm, xd⟩
  rw [hEq] at hav har
  have hv := hav
  rw [validDate_mk] at hv
  obtain ⟨hx1, hx2, hx3, hx4, hx5⟩ := hv
  have hxle := daysInMonth_le xy xm
  have hxge := daysInMonth_ge xy xm
  have hr1 : validDate (⟨xy, xm, 1⟩ : Date) := by
    rw [validDate_mk]
    exact ⟨hx1, hx2, hx3, by omega, by omega⟩
  have hrdx := rataDie_mk xy xm xd
  have hrd1 := rataDie_mk xy xm 1
  have hrs := rataDie_pos s hs
  have h2le : 2 ≤ rataDie (⟨xy, xm, 1⟩ : Date) := by
    omega
  have hp := prevDay_props ⟨xy, xm, 1⟩ hr1 h2le
  have hp2 := hp.2
  constructor
  · show validDate (prevDay (⟨xy, xm, 1⟩ : Date))
    exact hp.1
  · show rataDie s ≤ rataDie (prevDay (⟨xy, xm, 1⟩ : Date))
    omega

/-- C7: for every supported symbolic period and every valid reference date
(of year at least 2, which every wall-clock reference satisfies), the
resolved window has valid calendar endpoints with start at or before end;
and every non-empty unparsable period name yields the invalid-period payload
carrying the list of valid period names. -/
theorem date_range_valid_and_invalid_period :
    (∀ (p : DateRange) (now : Date), validDate now → 2 ≤ now.year →
      validDate (get_date_range p now).1 ∧ validDate (get_date_range p now).2 ∧
      rataDie (get_date_range p now).1 ≤ rataDie (get_date_range p now).2) ∧
    (∀ (s : String) (now : Date), s ≠ "" → parsePeriod s = none →
      periodCondition s now =
        .error ("Invalid time period: " ++ s, validPeriodNames)) := by
  constructor
  · intro p now hv hy
    obtain ⟨y, m, dd⟩ := now
    have hy' : 2 ≤ y := hy
    have hvmk := hv
    rw [validDate_mk] at hvmk
    obtain ⟨h1, h2, h3, h4, h5⟩ := hvmk
    have h366 := rataDie_year_ge_two ⟨y, m, dd⟩ hv hy
    have hrw1 : replaceDay1 (⟨y, m, dd⟩ : Date) = ⟨y, m, 1⟩ := rfl
    cases p with
    | this_week =>
      simp only [get_date_range]
      have hw := weekday_lt (⟨y, m, dd⟩ : Date)
      obtain ⟨hsubv, hsubr⟩ :=
        subDays_props (weekday ⟨y, m, dd⟩) ⟨y, m, dd⟩ hv (by omega)
      obtain ⟨haddv, haddr⟩ := addDays_props 6 _ hsubv
      exact ⟨hsubv, haddv, by omega⟩
    | last_week =>
      simp only [get_date_range]
      have hw := weekday_lt (⟨y, m, dd⟩ : Date)
      obtain ⟨hsubv, hsubr⟩ :=
        subDays_props (weekday ⟨y, m, dd⟩ + 7) ⟨y, m, dd⟩ hv (by omega)
      obtain ⟨haddv, haddr⟩ := addDays_props 6 _ hsubv
      exact ⟨hsubv, haddv, by omega⟩
    | this_month =>
      simp only [get_date_range]
      rw [hrw1]
      have hge := daysInMonth_ge y m
      have hr1 : validDate (⟨y, m, 1⟩ : Date) := by
        rw [validDate_mk]
        exact ⟨h1, h2, h3, by omega, by omega⟩
      have hchain := endChain_props 32 ⟨y, m, 1⟩ hr1 (by omega)
      exact ⟨hr1, hchain.1, hchain.2⟩
    | last_month =>
      simp only [get_date_range]
      rw [hrw1]
      have hge := daysInMonth_ge y m
      have hle := daysInMonth_le y m
      have hr1 : validDate (⟨y, m, 1⟩ : Date) := by
        rw [validDate_mk]
        exact ⟨h1, h2, h3, by omega, by omega⟩
      have h2le : 2 ≤ rataDie (⟨y, m, 1⟩ : Date) := by
        rw [rataDie_mk]
        rw [rataDie_mk] at h366
        omega
      have hp := prevDay_props ⟨y, m, 1⟩ hr1 h2le
      rcases hE : prevDay (⟨y, m, 1⟩ : Date) with ⟨ey, em, ed⟩
      rw [hE] at hp
      obtain ⟨hpv, hpr⟩ := hp
      have hpvmk := hpv
      rw [validDate_mk] at hpvmk
      obtain ⟨he1, he2, he3, he4, he5⟩ := hpvmk
      have hege := daysInMonth_ge ey em
      have hrw2 : replaceDay1 (⟨ey, em, ed⟩ : Date) = ⟨ey, em, 1⟩ := rfl
      rw [hrw2]
      refine ⟨?_, hpv, ?_⟩
      · rw [validDate_mk]
        exact ⟨he1, he2, he3, by omega, by omega⟩
      · rw [rataDie_mk, rataDie_mk]
        omega
    | this_quarter =>
      simp only [get_date_range]
      have hge := daysInMonth_ge y (((m - 1) / 3 + 1 - 1) * 3 + 1)
      have hstart : validDate (⟨y, ((m - 1) / 3 + 1 - 1) * 3 + 1, 1⟩ : Date) := by
        rw [validDate_mk]
        exact ⟨h1, by omega, by omega, by omega, by omega⟩
      have hchain := endChain_props 95 _ hstart (by omega)
      exact ⟨hstart, hchain.1, hchain.2⟩
    | last_quarter =>
      simp only [get_date_range]
      by_cases hq : (m - 1) / 3 = 0
      · rw [if_pos hq]
        have hge := daysInMonth_ge (y - 1) 10
        have hstart : validDate (⟨y - 1, 10, 1⟩ : Date) := by
          rw [validDate_mk]
          exact ⟨by omega, by omega, by omega, by omega, by omega⟩
        have hchain := endChain_props 95 _ hstart (by omega)
        exact ⟨hstart, hchain.1, hchain.2⟩
      · rw [if_neg hq]
        have hge := daysInMonth_ge y (((m - 1) / 3 - 1) * 3 + 1)
        have hstart : validDate (⟨y, ((m - 1) / 3 - 1) * 3 + 1, 1⟩ : Date) := by
          rw [validDate_mk]
          exact ⟨h1, by omega, by omega, by omega, by omega⟩
        have hchain := endChain_props 95 _ hstart (by omega)
        exact ⟨hstart, hchain.1, hchain.2⟩
    | this_year =>
      simp only [get_date_range]
      have hge1 := daysInMonth_ge y 1
      have hd31 : daysInMonth y 12 = 31 := rfl
      refine ⟨?_, ?_, ?_⟩
      · rw [validDate_mk]
        exact ⟨h1, by omega, by omega, by omega, by omega⟩
      · rw [validDate_mk]
        exact ⟨h1, by omega, by omega, by omega, by omega⟩
      · rw [rataDie_mk, rataDie_mk, daysBeforeMonth_one]
        omega
    | last_year =>
      simp only [get_date_range]
      have hge1 := daysInMonth_ge (y - 1) 1
      have hd31 : daysInMonth (y - 1) 12 = 31 := rfl
      refine ⟨?_, ?_, ?_⟩
      · rw [validDate_mk]
        exact ⟨by omega, by omega, by omega, by omega, by omega⟩
      · rw [validDate_mk]
        exact ⟨by omega, by omega, by omega, by omega, by omega⟩
      · rw [rataDie_mk, rataDie_mk, daysBeforeMonth_one]
        omega
  · intro s now hne hparse
    unfold periodCondition
    rw [if_neg hne, hparse]

theorem addDays_add (a b : Nat) (d : Date) :
    addDays (a + b) d = addDays b (addDays a d) := by
  induction a generalizing d with
  | zero =>
    rw [Nat.zero_add]
    rfl
  | succ k ih =>
    rw [show k + 1 + b = (k + b) + 1 by omega]
    show addDays (k + b) (nextDay d) = addDays b (addDays (k + 1) d)
    rw [ih (nextDay d)]
    rfl

theorem addDays_within : ∀ (k y m dd : Nat), 1 ≤ dd →
    dd + k ≤ daysInMonth y m → addDays k ⟨y, m, dd⟩ = ⟨y, m, dd + k⟩ := by
  intro k
  induction k with
  | zero =>
    intro y m dd _ _
    rfl
  | succ j ih =>
    intro y m dd hdd hbound
    have hn : nextDay ⟨y, m, dd⟩ = ⟨y, m, dd + 1⟩ := by
      unfold nextDay
      dsimp only
      rw [if_pos (by omega)]
    show addDays j (nextDay ⟨y, m, dd⟩) = _
    rw [hn, ih y m (dd + 1) (by omega) (by omega),
      show dd + 1 + j = dd + (j + 1) by omega]

theorem month_step (y m k : Nat) (hm1 : 1 ≤ m) (hm12 : m < 12) :
    addDays (daysInMonth y m + k) ⟨y, m, 1⟩ = addDays k ⟨y, m + 1, 1⟩ := by
  have hge := daysInMonth_ge y m
  have hstep : addDays (daysInMonth y m) ⟨y, m, 1⟩ = ⟨y, m + 1, 1⟩ := by
    rw [show daysInMonth y m = (daysInMonth y m - 1) + 1 by omega, addDays_add]
    rw [addDays_within (daysInMonth y m - 1) y m 1 (by omega) (by omega)]
    rw [show 1 + (daysInMonth y m - 1) = daysInMonth y m by omega]
    show nextDay ⟨y, m, daysInMonth y m⟩ = ⟨y, m + 1, 1⟩
    unfold nextDay
    dsimp only
    rw [if_neg (by omega), if_pos hm12]
  rw [addDays_add, hstep]

theorem year_step (y k : Nat) :
    addDays (daysInMonth y 12 + k) ⟨y, 12, 1⟩ = addDays k ⟨y + 1, 1, 1⟩ := by
  have h31 : daysInMonth y 12 = 31 := rfl
  have hstep : addDays (daysInMonth y 12) ⟨y, 12, 1⟩ = ⟨y + 1, 1, 1⟩ := by
    rw [show daysInMonth y 12 = (daysInMonth y 12 - 1) + 1 by omega, addDays_add]
    rw [addDays_within (daysInMonth y 12 - 1) y 12 1 (by omega) (by omega)]
    rw [show 1 + (daysInMonth y 12 - 1) = daysInMonth y 12 by omega]
    show nextDay ⟨y, 12, daysInMonth y 12⟩ = ⟨y + 1, 1, 1⟩
    unfold nextDay
    dsimp only
    rw [if_neg (by omega), if_neg (by omega)]
  rw [addDays_add, hstep]

theorem addDays95_q1 (y : Nat) :
    addDays 95 ⟨y, 1, 1⟩ = if isLeap y then ⟨y, 4, 5⟩ else ⟨y, 4, 6⟩ := by
  have h1 : daysInMonth y 1 = 31 := rfl
  have h3 : daysInMonth y 3 = 31 := rfl
  have h4 : daysInMonth y 4 = 30 := rfl
  by_cases hL : isLeap y = true
  · have h2 : daysInMonth y 2 = 29 := by
      unfold daysInMonth
      rw [if_pos hL]
    rw [if_pos hL]
    rw [show (95 : Nat) = daysInMonth y 1 + 64 by omega, month_step y 1 64 (by omega) (by omega)]
    rw [show (64 : Nat) = daysInMonth y 2 + 35 by omega, month_step y 2 35 (by omega) (by omega)]
    rw [show (35 : Nat) = daysInMonth y 3 + 4 by omega, month_step y 3 4 (by omega) (by omega)]
    rw [addDays_within 4 y 4 1 (by omega) (by omega)]
  · have h2 : daysInMonth y 2 = 28 := by
      unfold daysInMonth
      rw [if_neg hL]
    rw [if_neg hL]
    rw [show (95 : Nat) = daysInMonth y 1 + 64 by omega, month_step y 1 64 (by omega) (by omega)]
    rw [show (64 : Nat) = daysInMonth y 2 + 36 by omega, month_step y 2 36 (by omega) (by omega)]
    rw [show (36 : Nat) = daysInMonth y 3 + 5 by omega, month_step y 3 5 (by omega) (by omega)]
    rw [addDays_within 5 y 4 1 (by omega) (by omega)]

theorem addDays95_q2 (y : Nat) : addDays 95 ⟨y, 4, 1⟩ = ⟨y, 7, 5⟩ := by
  have h4 : daysInMonth y 4 = 30 := rfl
  have h5 : daysInMonth y 5 = 31 := rfl
  have h6 : daysInMonth y 6 = 30 := rfl
  have h7 : daysInMonth y 7 = 31 := rfl
  rw [show (95 : Nat) = daysInMonth y 4 + 65 by omega, month_step y 4 65 (by omega) (by omega)]
  rw [show (65 : Nat) = daysInMonth y 5 + 34 by omega, month_step y 5 34 (by omega) (by omega)]
  rw [show (34 : Nat) = daysInMonth y 6 + 4 by omega, month_step y 6 4 (by omega) (by omega)]
  rw [addDays_within 4 y 7 1 (by omega) (by omega)]

theorem addDays95_q3 (y : Nat) : addDays 95 ⟨y, 7, 1⟩ = ⟨y, 10, 4⟩ := by
  have h7 : daysInMonth y 7 = 31 := rfl
  have h8 : daysInMonth y 8 = 31 := rfl
  have h9 : daysInMonth y 9 = 30 := rfl
  have h10 : daysInMonth y 10 = 31 := rfl
  rw [show (95 : Nat) = daysInMonth y 7 + 64 by omega, month_step y 7 64 (by omega) (by omega)]
  rw [show (64 : Nat) = daysInMonth y 8 + 33 by omega, month_step y 8 33 (by omega) (by omega)]
  rw [show (33 : Nat) = daysInMonth y 9 + 3 by omega, month_step y 9 3 (by omega) (by omega)]
  rw [addDays_within 3 y 10 1 (by omega) (by omega)]

theorem addDays95_q4 (y : Nat) : addDays 95 ⟨y, 10, 1⟩ = ⟨y + 1, 1, 4⟩ := by
  have h10 : daysInMonth y 10 = 31 := rfl
  have h11 : daysInMonth y 11 = 30 := rfl
  have h12 : daysInMonth y 12 = 31 := rfl
  have h1 : daysInMonth (y + 1) 1 = 31 := rfl
  rw [show (95 : Nat) = daysInMonth y 10 + 64 by omega, month_step y 10 64 (by omega) (by omega)]
  rw [show (64 : Nat) = daysInMonth y 11 + 34 by omega, month_step y 11 34 (by omega) (by omega)]
  rw [show (34 : Nat) = daysInMonth y 12 + 3 by omega, year_step y 3]
  rw [addDays_within 3 (y + 1) 1 1 (by omega) (by omega)]

theorem qEnd_q1 (y : Nat) :
    prevDay (replaceDay1 (addDays 95 ⟨y, 1, 1⟩)) = ⟨y, 3, 31⟩ := by
  rw [addDays95_q1]
  by_cases hL : isLeap y = true
  · rw [if_pos hL]
    show prevDay ⟨y, 4, 1⟩ = ⟨y, 3, 31⟩
    unfold prevDay
    dsimp only
    rw [if_neg (by omega), if_pos (by omega)]
    rfl
  · rw [if_neg hL]
    show prevDay ⟨y, 4, 1⟩ = ⟨y, 3, 31⟩
    unfold prevDay
    dsimp only
    rw [if_neg (by omega), if_pos (by omega)]
    rfl

theorem qEnd_q2 (y : Nat) :
    prevDay (replaceDay1 (addDays 95 ⟨y, 4, 1⟩)) = ⟨y, 6, 30⟩ := by
  rw [addDays95_q2]
  show prevDay ⟨y, 7, 1⟩ = ⟨y, 6, 30⟩
  unfold prevDay
  dsimp only
  rw [if_neg (by omega), if_pos (by omega)]
  rfl

theorem qEnd_q3 (y : Nat) :
    prevDay (replaceDay1 (addDays 95 ⟨y, 7, 1⟩)) = ⟨y, 9, 30⟩ := by
  rw [addDays95_q3]
  show prevDay ⟨y, 10, 1⟩ = ⟨y, 9, 30⟩
  unfold prevDay
  dsimp only
  rw [if_neg (by omega), if_pos (by omega)]
  rfl

theorem qEnd_q4 (y : Nat) :
    prevDay (replaceDay1 (addDays 95 ⟨y, 10, 1⟩)) = ⟨y, 12, 31⟩ := by
  rw [addDays95_q4]
  show prevDay ⟨y + 1, 1, 1⟩ = ⟨y, 12, 31⟩
  unfold prevDay
  dsimp only
  rw [if_neg (by omega), if_neg (by omega)]
  simp


/-- C6: for every valid reference date, the this-quarter window starts on day
1 of the aligned quarter month (one of 1, 4, 7, 10) and ends on the last day
of that quarter, which contains the reference month; and for a January
reference the last-quarter window is October 1 through December 31 of the
previous year. -/
theorem this_quarter_aligned_and_last_quarter_january :
    (∀ now : Date, validDate now →
      (get_date_range .this_quarter now).1 =
        ⟨now.year, 3 * ((now.month - 1) / 3) + 1, 1⟩ ∧
      (get_date_range .this_quarter now).2 =
        ⟨now.year, 3 * ((now.month - 1) / 3) + 3,
          daysInMonth now.year (3 * ((now.month - 1) / 3) + 3)⟩ ∧
      3 * ((now.month - 1) / 3) + 1 ≤ now.month ∧
      now.month ≤ 3 * ((now.month - 1) / 3) + 3 ∧
      (3 * ((now.month - 1) / 3) + 1) ∈ ([1, 4, 7, 10] : List Nat)) ∧
    (∀ y dd : Nat, validDate ⟨y, 1, dd⟩ → 2 ≤ y →
      get_date_range .last_quarter ⟨y, 1, dd⟩ =
        (⟨y - 1, 10, 1⟩, ⟨y - 1, 12, 31⟩)) := by
  constructor
  · intro now hv
    obtain ⟨y, m, dd⟩ := now
    rw [validDate_mk] at hv
    obtain ⟨h1, h2, h3, h4, h5⟩ := hv
    simp only [get_date_range]
    interval_cases m
    · refine ⟨by norm_num, ?_, by norm_num, by norm_num, by decide⟩
      norm_num
      rw [show daysInMonth y 3 = 31 from rfl]
      exact qEnd_q1 y
    · refine ⟨by norm_num, ?_, by norm_num, by norm_num, by decide⟩
      norm_num
      rw [show daysInMonth y 3 = 31 from rfl]
      exact qEnd_q1 y
    · refine ⟨by norm_num, ?_, by norm_num, by norm_num, by decide⟩
      norm_num
      rw [show daysInMonth y 3 = 31 from rfl]
      exact qEnd_q1 y
    · refine ⟨by norm_num, ?_, by norm_num, by norm_num, by decide⟩
      norm_num
      rw [show daysInMonth y 6 = 30 from rfl]
      exact qEnd_q2 y
    · refine ⟨by norm_num, ?_, by norm_num, by norm_num, by decide⟩
      norm_num
      rw [show daysInMonth y 6 = 30 from rfl]
      exact qEnd_q2 y
    · refine ⟨by norm_num, ?_, by norm_num, by norm_num, by decide⟩
      norm_num
      rw [show daysInMonth y 6 = 30 from rfl]
      exact qEnd_q2 y
    · refine ⟨by norm_num, ?_, by norm_num, by norm_num, by decide⟩
      norm_num
      rw [show daysInMonth y 9 = 30 from rfl]
      exact qEnd_q3 y
    · refine ⟨by norm_num, ?_, by norm_num, by norm_num, by decide⟩
      norm_num
      rw [show daysInMonth y 9 = 30 from rfl]
      exact qEnd_q3 y
    · refine ⟨by norm_num, ?_, by norm_num, by norm_num, by decide⟩
      norm_num
      rw [show daysInMonth y 9 = 30 from rfl]
      exact qEnd_q3 y
    · refine ⟨by norm_num, ?_, by norm_num, by norm_num, by decide⟩
      norm_num
      rw [show daysInMonth y 12 = 31 from rfl]
      exact qEnd_q4 y
    · refine ⟨by norm_num, ?_, by norm_num, by norm_num, by decide⟩
      norm_num
      rw [show daysInMonth y 12 = 31 from rfl]
      exact qEnd_q4 y
    · refine ⟨by norm_num, ?_, by norm_num, by norm_num, by decide⟩
      norm_num
      rw [show daysInMonth y 12 = 31 from rfl]
      exact qEnd_q4 y
  · intro y dd _ _
    simp only [get_date_range]
    rw [if_pos (by norm_num)]
    rw [qEnd_q4 (y - 1)]

/-- Witness for the C6 theorem: a May 2025 reference yields the aligned Q2
window, and a January 2025 reference rolls last-quarter back into 2024. -/
theorem this_quarter_aligned_and_last_quarter_january_witness :
    validDate ⟨2025, 5, 15⟩ ∧
    ((get_date_range .this_quarter ⟨2025, 5, 15⟩).1 = ⟨2025, 4, 1⟩ ∧
      (get_date_range .this_quarter ⟨2025, 5, 15⟩).2 = ⟨2025, 6, 30⟩) ∧
    get_date_range .last_quarter ⟨2025, 1, 10⟩ =
      (⟨2024, 10, 1⟩, ⟨2024, 12, 31⟩) := by
  refine ⟨by decide, ⟨?_, ?_⟩, ?_⟩
  · exact (this_quarter_aligned_and_last_quarter_january.1 ⟨2025, 5, 15⟩ (by decide)).1
  · exact (this_quarter_aligned_and_last_quarter_january.1 ⟨2025, 5, 15⟩ (by decide)).2.1
  · exact this_quarter_aligned_and_last_quarter_january.2 2025 10 (by decide) (by decide)

/-- Witness for the C7 theorem: the this-week window of a May 2025 reference
is valid and ordered, and the period name `fortnight` yields the
invalid-period payload. -/
theorem date_range_valid_and_invalid_period_witness :
    (validDate (get_date_range .this_week ⟨2025, 5, 15⟩).1 ∧
      validDate (get_date_range .this_week ⟨2025, 5, 15⟩).2 ∧
      rataDie (get_date_range .this_week ⟨2025, 5, 15⟩).1 ≤
        rataDie (get_date_range .this_week ⟨2025, 5, 15⟩).2) ∧
    periodCondition "fortnight" ⟨2025, 1, 1⟩ =
      .error ("Invalid time period: fortnight", validPeriodNames) :=
  ⟨date_range_valid_and_invalid_period.1 .this_week ⟨2025, 5, 15⟩ (by decide) (by decide),
   date_range_valid_and_invalid_period.2 "fortnight" ⟨2025, 1, 1⟩ (by decide) (by decide)⟩

/-- Floor of a rational as an integer (floor division of numerator by
denominator). -/
def ratFloor (q : ℚ) : ℤ :=
  Int.fdiv q.num (q.den : ℤ)

/-- Python banker-style `round(q, 2)` on exact rationals: round half to
even at two decimal places. -/
def roundHalfEven (q : ℚ) : ℤ :=
  let f : ℤ := ratFloor q
  let r : ℚ := q - (f : ℚ)
  if Rat.blt r (1 / 2) then f
  else if Rat.blt (1 / 2) r then f + 1
  else if f % 2 = 0 then f else f + 1

/-- Python `round(q, 2)`. -/
def round2 (q : ℚ) : ℚ :=
  (roundHalfEven (q * 100) : ℚ) / 100

/-- Stable insertion into an ascending list: a new element goes after the
elements it equals, as Python `sorted` keeps equal elements in input order. -/
def insertAsc {α : Type} (lt : α → α → Bool) (x : α) : List α → List α
  | [] => [x]
  | y :: ys => if lt x y then x :: y :: ys else y :: insertAsc lt x ys

/-- Python `sorted`: ascending stable sort with respect to a strict boolean
comparison. -/
def sortAsc {α : Type} (lt : α → α → Bool) (l : List α) : List α :=
  l.foldl (fun acc x => insertAsc lt x acc) []

/-- Median used by `analyze_account_trends` for revenues
(src/tools/accounts.py line 259):
`round(sorted(revenues)[len(revenues)//2], 2)`.  The tool only evaluates it
on non-empty input (`if revenues:`); the default 0 covers the empty case the
code never reaches. -/
def median_revenue (revenues : List ℚ) : ℚ :=
  round2 ((sortAsc Rat.blt revenues).getD (revenues.length / 2) 0)

/-- Median used by `analyze_account_trends` for employee counts
(src/tools/accounts.py line 273): `sorted(employee_counts)[len//2]`. -/
def median_employees (counts : List Nat) : Nat :=
  (sortAsc Nat.blt counts).getD (counts.length / 2) 0

theorem round2_intCast (n : ℤ) : round2 ((n : ℤ) : ℚ) = (n : ℚ) := by
  unfold round2 roundHalfEven ratFloor
  have hmul : ((n : ℚ) * 100) = (((100 * n : ℤ)) : ℚ) := by
    push_cast
    ring
  rw [hmul, Rat.num_intCast, Rat.den_intCast]
  norm_num
  have hblt : Rat.blt 0 (1 / 2) = true := by
    have h : (0 : ℚ) < 1 / 2 := by norm_num
    exact h
  rw [hblt]
  norm_num

theorem median_revenue_example_eval : median_revenue [10, 20, 30, 40] = 30 := by
  unfold median_revenue
  have hs : (sortAsc Rat.blt [(10 : ℚ), 20, 30, 40]).getD
      (([(10 : ℚ), 20, 30, 40].length) / 2) 0 = 30 := by
    decide
  rw [hs, show (30 : ℚ) = ((30 : ℤ) : ℚ) by norm_num, round2_intCast]

/-- C3 counterexample: for the spec example `[10, 20, 30, 40]` the computed
median is not the lower-middle 20 — index `len // 2 = 2` of the sorted list
selects 30. -/
theorem median_example_not_lower_middle :
    median_revenue [10, 20, 30, 40] ≠ 20 := by
  rw [median_revenue_example_eval]
  norm_num

/-- C3 amended: the median is the element at index `len // 2` of the sorted
sequence, the upper-middle element for even length: for `[10, 20, 30, 40]`
it is 30 (neither 20 nor the interpolated 25), while for odd length it is
the true middle. -/
theorem median_upper_middle :
    median_revenue [10, 20, 30, 40] = 30 ∧
    median_revenue [10, 20, 30, 40] ≠ 25 ∧
    median_employees [30, 10, 20] = 20 := by
  refine ⟨median_revenue_example_eval, ?_, by decide⟩
  rw [median_revenue_example_eval]
  norm_num

/-- One breakdown bucket: `{"count": ..., "value": ...}`. -/
structure BreakdownEntry where
  count : Nat
  value : ℚ

/-- Breakdown update of high_value_pipeline_analysis (lines 105-119): a new
key is appended (Python dicts keep insertion order), an existing key has its
count and value bumped in place. -/
def bumpBreakdown (m : List (JKey × BreakdownEntry)) (k : JKey) (amt : ℚ) :
    List (JKey × BreakdownEntry) :=
  if (m.lookup k).isSome then
    m.map (fun kv => if kv.1 = k then (kv.1, ⟨kv.2.count + 1, kv.2.value + amt⟩) else kv)
  else
    m ++ [(k, ⟨1, amt⟩)]

/-- One `opp_data` record of high_value_pipeline_analysis (lines 87-99). -/
structure HVOpp where
  id : JVal
  name : JVal
  amount : ℚ
  amount_display : JVal
  close_date : JVal
  stage : JVal
  probability : ℚ
  weighted_value : ℚ
  account_name : JVal
  industry : JVal
  owner : JVal

/-- Accumulators of the loop in high_value_pipeline_analysis (lines 72-77). -/
structure HVAcc where
  opportunities : List HVOpp
  total_pipeline_value : ℚ
  weighted_pipeline_value : ℚ
  stage_breakdown : List (JKey × BreakdownEntry)
  owner_breakdown : List (JKey × BreakdownEntry)
  industry_breakdown : List (JKey × BreakdownEntry)

/-- Initial accumulators (lines 72-77). -/
def hvInit : HVAcc :=
  ⟨[], 0, 0, [], [], []⟩

/-- Loop body of high_value_pipeline_analysis
(src/tools/business_analysis_tools.py lines 79-119), with the field lookups
in source order; the first raised exception aborts the call. -/
def processHVEdge (acc : HVAcc) (edge : JVal) : Except PyError HVAcc := do
  let node ← pyIndex edge "node"
  let amountW ← pyGetD node "Amount" (.jobj [])
  let amountV ← pyGetD amountW "value" (.jnum 0)
  let amount ← pyFloat (pyOr amountV (.jnum 0))
  let probW ← pyGetD node "Probability" (.jobj [])
  let probV ← pyGetD probW "value" (.jnum 0)
  let probability ← pyFloat (pyOr probV (.jnum 0))
  let stageW ← pyGetD node "StageName" (.jobj [])
  let stage ← pyGetD stageW "value" (.jstr "Unknown")
  let ownerW ← pyGetD node "Owner" (.jobj [])
  let ownerNameW ← pyGetD ownerW "Name" (.jobj [])
  let owner ← pyGetD ownerNameW "value" (.jstr "Unknown")
  let accountW ← pyGetD node "Account" (.jobj [])
  let industryW ← pyGetD accountW "Industry" (.jobj [])
  let industry ← pyGetD industryW "value" (.jstr "Unknown")
  let idV ← pyGetD node "Id" .jnull
  let nameW ← pyGetD node "Name" (.jobj [])
  let nameV ← pyGetD nameW "value" (.jstr "")
  let amountDisp ← pyGetD amountW "displayValue" (.jstr "")
  let closeW ← pyGetD node "CloseDate" (.jobj [])
  let closeV ← pyGetD closeW "value" (.jstr "")
  let acctNameW ← pyGetD accountW "Name" (.jobj [])
  let acctName ← pyGetD acctNameW "value" (.jstr "")
  let stageKey ← jvalKey stage
  let ownerKey ← jvalKey owner
  let industryKey ← jvalKey industry
  pure ⟨acc.opportunities ++
      [⟨idV, nameV, amount, amountDisp, closeV, stage, probability,
        amount * (probability / 100), acctName, industry, owner⟩],
    acc.total_pipeline_value + amount,
    acc.weighted_pipeline_value + amount * (probability / 100),
    bumpBreakdown acc.stage_breakdown stageKey amount,
    bumpBreakdown acc.owner_breakdown ownerKey amount,
    bumpBreakdown acc.industry_breakdown industryKey amount⟩

/-- The `for edge in edges` loop of high_value_pipeline_analysis. -/
def foldHVEdges : List JVal → HVAcc → Except PyError HVAcc
  | [], acc => .ok acc
  | e :: es, acc => do
    let acc2 ← processHVEdge acc e
    foldHVEdges es acc2

/-- Filter echo of the success payload (lines 123-127): `total_in_org` is
the hard-coded literal 34 of line 125 ("We know this from the test"). -/
structure HVFilter where
  min_amount : ℚ
  total_in_org : Nat
  high_value_count : Nat

/-- Pipeline summary of the success payload (lines 128-134), with the
division-by-zero guards of lines 132-133. -/
structure HVSummary where
  total_opportunities : Nat
  total_pipeline_value : ℚ
  weighted_pipeline_value : ℚ
  average_deal_size : ℚ
  average_probability : ℚ

/-- Success payload of high_value_pipeline_analysis (lines 121-142),
without the wall-clock timestamp. -/
structure HVReport where
  filter_applied : HVFilter
  pipeline_summary : HVSummary
  stage_breakdown : List (JKey × BreakdownEntry)
  owner_breakdown : List (JKey × BreakdownEntry)
  industry_breakdown : List (JKey × BreakdownEntry)
  opportunities : List HVOpp

/-- Assembly of the success payload from the loop accumulators
(lines 121-142). -/
def mkHVReport (min_amount : ℚ) (acc : HVAcc) : HVReport :=
  let n := acc.opportunities.length
  ⟨⟨min_amount, 34, n⟩,
    ⟨n, acc.total_pipeline_value, acc.weighted_pipeline_value,
      (if n ≠ 0 then acc.total_pipeline_value / (n : ℚ) else 0),
      (if n ≠ 0 then ((acc.opportunities.map HVOpp.probability).sum / (n : ℚ)) else 0)⟩,
    acc.stage_breakdown, acc.owner_breakdown, acc.industry_breakdown,
    acc.opportunities⟩

/-- Aggregation of high_value_pipeline_analysis over the extracted edge
list: run the loop, then assemble the payload. -/
def processHVEdges (min_amount : ℚ) (edges : List JVal) : Except PyError HVReport := do
  let acc ← foldHVEdges edges hvInit
  pure (mkHVReport min_amount acc)

/-- Result of the high_value_pipeline_analysis tool. -/
inductive HVResult where
  | success (report : HVReport)
  | failure (error : String) (error_type : String)

/-- The high_value_pipeline_analysis tool
(src/tools/business_analysis_tools.py lines 13-150): the whole body sits in
one try/except, so any exception — raised by the client call or by the
processing loop — is returned as a failure payload carrying `str(e)` and
`type(e).__name__`.  The response also yields `total_count` (line 69),
which the success payload never uses. -/
def high_value_pipeline_analysis (min_amount : ℚ) (limit : Nat)
    (clientResult : Except PyError JVal) : HVResult :=
  match (do
      let r ← clientResult
      let edges ← edgesOf "Opportunity" r
      processHVEdges min_amount edges) with
  | .ok rep => .success rep
  | .error e => .failure e.msg e.kind

/-- A well-formed response whose single opportunity has `Account: null`, as
Salesforce returns for an opportunity without an account. -/
def nullAccountResp : JVal :=
  .jobj [("data", .jobj [("uiapi", .jobj [("query", .jobj [("Opportunity",
    .jobj [("edges", .jarr [.jobj [("node", .jobj [("Account", .jnull)])]]),
      ("totalCount", .jnum 1)])])])])]

/-- C5 counterexample: a record whose Account relation is present with value
null makes the aggregation raise `AttributeError` — the record is not
defaulted, and the whole call degrades to a failure payload instead of an
aggregate. -/
theorem null_relation_raises_attribute_error :
    processHVEdges 50000 [.jobj [("node", .jobj [("Account", .jnull)])]] =
      .error ⟨"AttributeError", "object has no attribute get"⟩ ∧
    high_value_pipeline_analysis 50000 50 (.ok nullAccountResp) =
      .failure "object has no attribute get" "AttributeError" := by
  exact ⟨rfl, rfl⟩

/-- Three-state optional field: key absent, key present with JSON null, or
key present with a value. -/
inductive FOpt (α : Type) where
  | absent
  | null
  | val (a : α)

/-- Wrapper object of a numeric field: `{value, displayValue}` with each
inner key possibly absent or null. -/
structure WrapN where
  value : FOpt ℚ
  displayValue : FOpt String

/-- Wrapper object of a text field: `{value}`. -/
structure WrapS where
  value : FOpt String

/-- Account relation object: `{Name, Industry}` wrappers, each possibly
absent. -/
structure AccountNode where
  name : Option WrapS
  industry : Option WrapS

/-- Owner relation object: `{Name}` wrapper, possibly absent. -/
structure OwnerNode where
  name : Option WrapS

/-- A record shape the aggregation tolerates: every key may be absent and
every wrapped value may be null, but wrappers and relations that are present
are objects (a present-null relation is exactly the C5 counterexample). -/
structure OppNode where
  id : FOpt String
  name : Option WrapS
  amount : Option WrapN
  closeDate : Option WrapS
  stageName : Option WrapS
  probability : Option WrapN
  account : Option AccountNode
  owner : Option OwnerNode

/-- JSON encoding of an optional string scalar. -/
def foptStr : FOpt String → Option JVal
  | .absent => none
  | .null => some .jnull
  | .val s => some (.jstr s)

/-- JSON encoding of an optional numeric scalar. -/
def foptNum : FOpt ℚ → Option JVal
  | .absent => none
  | .null => some .jnull
  | .val q => some (.jnum q)

/-- One optional object entry. -/
def optField (k : String) (v : Option JVal) : List (String × JVal) :=
  match v with
  | none => []
  | some x => [(k, x)]

/-- JSON encoding of a numeric wrapper. -/
def mkWrapN (w : WrapN) : JVal :=
  .jobj (optField "value" (foptNum w.value) ++ optField "displayValue" (foptStr w.displayValue))

/-- JSON encoding of a text wrapper. -/
def mkWrapS (w : WrapS) : JVal :=
  .jobj (optField "value" (foptStr w.value))

/-- JSON encoding of an account relation. -/
def mkAccount (a : AccountNode) : JVal :=
  .jobj (optField "Name" (a.name.map mkWrapS) ++ optField "Industry" (a.industry.map mkWrapS))

/-- JSON encoding of an owner relation. -/
def mkOwner (o : OwnerNode) : JVal :=
  .jobj (optField "Name" (o.name.map mkWrapS))

/-- JSON encoding of a tolerated record. -/
def mkNode (r : OppNode) : JVal :=
  .jobj (optField "Id" (foptStr r.id) ++
    (optField "Name" (r.name.map mkWrapS) ++
    (optField "Amount" (r.amount.map mkWrapN) ++
    (optField "CloseDate" (r.closeDate.map mkWrapS) ++
    (optField "StageName" (r.stageName.map mkWrapS) ++
    (optField "Probability" (r.probability.map mkWrapN) ++
    (optField "Account" (r.account.map mkAccount) ++
    optField "Owner" (r.owner.map mkOwner))))))))

/-- JSON encoding of one edge. -/
def mkEdge (r : OppNode) : JVal :=
  .jobj [("node", mkNode r)]

theorem lookup_optField_ne (k k2 : String) (h : (k == k2) = false) (x : Option JVal)
    (rest : List (String × JVal)) :
    List.lookup k (optField k2 x ++ rest) = List.lookup k rest := by
  cases x with
  | none => rfl
  | some v => simp [optField, List.lookup, h]

theorem lookup_optField_eq (k : String) (x : Option JVal) (rest : List (String × JVal)) :
    List.lookup k (optField k x ++ rest) =
      (match x with | none => List.lookup k rest | some v => some v) := by
  cases x with
  | none => rfl
  | some v => simp [optField, List.lookup]

theorem lookup_optField_ne_last (k k2 : String) (h : (k == k2) = false) (x : Option JVal) :
    List.lookup k (optField k2 x) = none := by
  cases x with
  | none => rfl
  | some v => simp [optField, List.lookup, h]

/-- Value of `node.get("Id")` on an encoded record. -/
def idJ (r : OppNode) : JVal :=
  match r.id with
  | .absent => .jnull
  | .null => .jnull
  | .val s => .jstr s

/-- Value of `node.get("Amount", {})` on an encoded record. -/
def amountWJ (r : OppNode) : JVal :=
  match r.amount with
  | none => .jobj []
  | some w => mkWrapN w

/-- Value of `node.get("Probability", {})` on an encoded record. -/
def probWJ (r : OppNode) : JVal :=
  match r.probability with
  | none => .jobj []
  | some w => mkWrapN w

/-- Value of `node.get("Name", {})` on an encoded record. -/
def nameWJ (r : OppNode) : JVal :=
  match r.name with
  | none => .jobj []
  | some w => mkWrapS w

/-- Value of `node.get("CloseDate", {})` on an encoded record. -/
def closeWJ (r : OppNode) : JVal :=
  match r.closeDate with
  | none => .jobj []
  | some w => mkWrapS w

/-- Value of `node.get("StageName", {})` on an encoded record. -/
def stageWJ (r : OppNode) : JVal :=
  match r.stageName with
  | none => .jobj []
  | some w => mkWrapS w

/-- Value of `node.get("Account", {})` on an encoded record. -/
def accountJ (r : OppNode) : JVal :=
  match r.account with
  | none => .jobj []
  | some a => mkAccount a

/-- Value of `node.get("Owner", {})` on an encoded record. -/
def ownerJ (r : OppNode) : JVal :=
  match r.owner with
  | none => .jobj []
  | some o => mkOwner o

theorem lookup_optField_eq_last (k : String) (x : Option JVal) :
    List.lookup k (optField k x) = x := by
  cases x with
  | none => rfl
  | some v => simp [optField, List.lookup]

theorem pyGetD_mkNode_Id (r : OppNode) :
    pyGetD (mkNode r) "Id" .jnull = .ok (idJ r) := by
  unfold mkNode idJ
  simp only [pyGetD]
  rw [lookup_optField_eq]
  cases r.id with
  | absent =>
    rw [lookup_optField_ne _ _ (by decide),
      lookup_optField_ne _ _ (by decide),
      lookup_optField_ne _ _ (by decide),
      lookup_optField_ne _ _ (by decide),
      lookup_optField_ne _ _ (by decide),
      lookup_optField_ne _ _ (by decide),
      lookup_optField_ne_last _ _ (by decide)]
    rfl
  | null => rfl
  | val s => rfl

theorem pyGetD_mkNode_Name (r : OppNode) :
    pyGetD (mkNode r) "Name" (.jobj []) = .ok (nameWJ r) := by
  unfold mkNode nameWJ
  simp only [pyGetD]
  rw [lookup_optField_ne _ _ (by decide),
    lookup_optField_eq]
  cases r.name with
  | none =>
    rw [lookup_optField_ne _ _ (by decide),
      lookup_optField_ne _ _ (by decide),
      lookup_optField_ne _ _ (by decide),
      lookup_optField_ne _ _ (by decide),
      lookup_optField_ne _ _ (by decide),
      lookup_optField_ne_last _ _ (by decide)]
    rfl
  | some w => rfl

theorem pyGetD_mkNode_Amount (r : OppNode) :
    pyGetD (mkNode r) "Amount" (.jobj []) = .ok (amountWJ r) := by
  unfold mkNode amountWJ
  simp only [pyGetD]
  rw [lookup_optField_ne _ _ (by decide),
    lookup_optField_ne _ _ (by decide),
    lookup_optField_eq]
  cases r.amount with
  | none =>
    rw [lookup_optField_ne _ _ (by decide),
      lookup_optField_ne _ _ (by decide),
      lookup_optField_ne _ _ (by decide),
      lookup_optField_ne _ _ (by decide),
      lookup_optField_ne_last _ _ (by decide)]
    rfl
  | some w => rfl

theorem pyGetD_mkNode_CloseDate (r : OppNode) :
    pyGetD (mkNode r) "CloseDate" (.jobj []) = .ok (closeWJ r) := by
  unfold mkNode closeWJ
  simp only [pyGetD]
  rw [lookup_optField_ne _ _ (by decide),
    lookup_optField_ne _ _ (by decide),
    lookup_optField_ne _ _ (by decide),
    lookup_optField_eq]
  cases r.closeDate with
  | none =>
    rw [lookup_optField_ne _ _ (by decide),
      lookup_optField_ne _ _ (by decide),
      lookup_optField_ne _ _ (by decide),
      lookup_optField_ne_last _ _ (by decide)]
    rfl
  | some w => rfl

theorem pyGetD_mkNode_StageName (r : OppNode) :
    pyGetD (mkNode r) "StageName" (.jobj []) = .ok (stageWJ r) := by
  unfold mkNode stageWJ
  simp only [pyGetD]
  rw [lookup_optField_ne _ _ (by decide),
    lookup_optField_ne _ _ (by decide),
    lookup_optField_ne _ _ (by decide),
    lookup_optField_ne _ _ (by decide),
    lookup_optField_eq]
  cases r.stageName with
  | none =>
    rw [lookup_optField_ne _ _ (by decide),
      lookup_optField_ne _ _ (by decide),
      lookup_optField_ne_last _ _ (by decide)]
    rfl
  | some w => rfl

theorem pyGetD_mkNode_Probability (r : OppNode) :
    pyGetD (mkNode r) "Probability" (.jobj []) = .ok (probWJ r) := by
  unfold mkNode probWJ
  simp only [pyGetD]
  rw [lookup_optField_ne _ _ (by decide),
    lookup_optField_ne _ _ (by decide),
    lookup_optField_ne _ _ (by decide),
    lookup_optField_ne _ _ (by decide),
    lookup_optField_ne _ _ (by decide),
    lookup_optField_eq]
  cases r.probability with
  | none =>
    rw [lookup_optField_ne _ _ (by decide),
      lookup_optField_ne_last _ _ (by decide)]
    rfl
  | some w => rfl

theorem pyGetD_mkNode_Account (r : OppNode) :
    pyGetD (mkNode r) "Account" (.jobj []) = .ok (accountJ r) := by
  unfold mkNode accountJ
  simp only [pyGetD]
  rw [lookup_optField_ne _ _ (by decide),
    lookup_optField_ne _ _ (by decide),
    lookup_optField_ne _ _ (by decide),
    lookup_optField_ne _ _ (by decide),
    lookup_optField_ne _ _ (by decide),
    lookup_optField_ne _ _ (by decide),
    lookup_optField_eq]
  cases r.account with
  | none =>
    rw [lookup_optField_ne_last _ _ (by decide)]
    rfl
  | some a => rfl

theorem pyGetD_mkNode_Owner (r : OppNode) :
    pyGetD (mkNode r) "Owner" (.jobj []) = .ok (ownerJ r) := by
  unfold mkNode ownerJ
  simp only [pyGetD]
  rw [lookup_optField_ne _ _ (by decide),
    lookup_optField_ne _ _ (by decide),
    lookup_optField_ne _ _ (by decide),
    lookup_optField_ne _ _ (by decide),
    lookup_optField_ne _ _ (by decide),
    lookup_optField_ne _ _ (by decide),
    lookup_optField_ne _ _ (by decide),
    lookup_optField_eq_last]
  cases r.owner with
  | none => rfl
  | some o => rfl

/-- Value of `.get("value", 0)` on an encoded numeric wrapper. -/
def wrapNValue (x : Option WrapN) : JVal :=
  match x with
  | none => .jnum 0
  | some w =>
    match w.value with
    | .absent => .jnum 0
    | .null => .jnull
    | .val q => .jnum q

/-- Value of `.get("displayValue", "")` on an encoded numeric wrapper. -/
def wrapNDisp (x : Option WrapN) : JVal :=
  match x with
  | none => .jstr ""
  | some w =>
    match w.displayValue with
    | .absent => .jstr ""
    | .null => .jnull
    | .val s => .jstr s

/-- Value of `.get("value", dflt)` on an encoded text wrapper. -/
def wrapSValue (dflt : String) (x : Option WrapS) : JVal :=
  match x with
  | none => .jstr dflt
  | some w =>
    match w.value with
    | .absent => .jstr dflt
    | .null => .jnull
    | .val s => .jstr s

/-- Value of `.get("Industry", {})` on an encoded account. -/
def accIndW (x : Option AccountNode) : JVal :=
  match x with
  | none => .jobj []
  | some a =>
    match a.industry with
    | none => .jobj []
    | some w => mkWrapS w

/-- Value of `.get("Name", {})` on an encoded account. -/
def accNameW (x : Option AccountNode) : JVal :=
  match x with
  | none => .jobj []
  | some a =>
    match a.name with
    | none => .jobj []
    | some w => mkWrapS w

/-- Value of `.get("Name", {})` on an encoded owner. -/
def ownNameW (x : Option OwnerNode) : JVal :=
  match x with
  | none => .jobj []
  | some o =>
    match o.name with
    | none => .jobj []
    | some w => mkWrapS w

/-- Final industry value extracted from an encoded account. -/
def accIndValue (x : Option AccountNode) : JVal :=
  match x with
  | none => .jstr "Unknown"
  | some a => wrapSValue "Unknown" a.industry

/-- Final account-name value extracted from an encoded account. -/
def accNameValue (x : Option AccountNode) : JVal :=
  match x with
  | none => .jstr ""
  | some a => wrapSValue "" a.name

/-- Final owner value extracted from an encoded owner. -/
def ownNameValue (x : Option OwnerNode) : JVal :=
  match x with
  | none => .jstr "Unknown"
  | some o => wrapSValue "Unknown" o.name

theorem pyGetD_amountWJ_value (r : OppNode) :
    pyGetD (amountWJ r) "value" (.jnum 0) = .ok (wrapNValue r.amount) := by
  unfold amountWJ wrapNValue
  cases r.amount with
  | none => rfl
  | some w =>
    unfold mkWrapN
    obtain ⟨v, dv⟩ := w
    cases v <;> cases dv <;> rfl

theorem pyGetD_amountWJ_disp (r : OppNode) :
    pyGetD (amountWJ r) "displayValue" (.jstr "") = .ok (wrapNDisp r.amount) := by
  unfold amountWJ wrapNDisp
  cases r.amount with
  | none => rfl
  | some w =>
    unfold mkWrapN
    obtain ⟨v, dv⟩ := w
    cases v <;> cases dv <;> rfl

theorem pyGetD_probWJ_value (r : OppNode) :
    pyGetD (probWJ r) "value" (.jnum 0) = .ok (wrapNValue r.probability) := by
  unfold probWJ wrapNValue
  cases r.probability with
  | none => rfl
  | some w =>
    unfold mkWrapN
    obtain ⟨v, dv⟩ := w
    cases v <;> cases dv <;> rfl

theorem pyGetD_stageWJ_value (r : OppNode) :
    pyGetD (stageWJ r) "value" (.jstr "Unknown") = .ok (wrapSValue "Unknown" r.stageName) := by
  unfold stageWJ wrapSValue
  cases r.stageName with
  | none => rfl
  | some w =>
    unfold mkWrapS
    obtain ⟨v⟩ := w
    cases v <;> rfl

theorem pyGetD_nameWJ_value (r : OppNode) :
    pyGetD (nameWJ r) "value" (.jstr "") = .ok (wrapSValue "" r.name) := by
  unfold nameWJ wrapSValue
  cases r.name with
  | none => rfl
  | some w =>
    unfold mkWrapS
    obtain ⟨v⟩ := w
    cases v <;> rfl

theorem pyGetD_closeWJ_value (r : OppNode) :
    pyGetD (closeWJ r) "value" (.jstr "") = .ok (wrapSValue "" r.closeDate) := by
  unfold closeWJ wrapSValue
  cases r.closeDate with
  | none => rfl
  | some w =>
    unfold mkWrapS
    obtain ⟨v⟩ := w
    cases v <;> rfl

theorem pyGetD_accountJ_industry (r : OppNode) :
    pyGetD (accountJ r) "Industry" (.jobj []) = .ok (accIndW r.account) := by
  unfold accountJ accIndW
  cases r.account with
  | none => rfl
  | some a =>
    unfold mkAccount
    obtain ⟨nm, ind⟩ := a
    cases nm <;> cases ind <;> rfl

theorem pyGetD_accountJ_name (r : OppNode) :
    pyGetD (accountJ r) "Name" (.jobj []) = .ok (accNameW r.account) := by
  unfold accountJ accNameW
  cases r.account with
  | none => rfl
  | some a =>
    unfold mkAccount
    obtain ⟨nm, ind⟩ := a
    cases nm <;> cases ind <;> rfl

theorem pyGetD_ownerJ_name (r : OppNode) :
    pyGetD (ownerJ r) "Name" (.jobj []) = .ok (ownNameW r.owner) := by
  unfold ownerJ ownNameW
  cases r.owner with
  | none => rfl
  | some o =>
    unfold mkOwner
    obtain ⟨nm⟩ := o
    cases nm <;> rfl

theorem pyGetD_accIndW_value (r : OppNode) :
    pyGetD (accIndW r.account) "value" (.jstr "Unknown") = .ok (accIndValue r.account) := by
  unfold accIndW accIndValue wrapSValue
  cases r.account with
  | none => rfl
  | some a =>
    obtain ⟨nm, ind⟩ := a
    cases ind with
    | none => rfl
    | some w =>
      unfold mkWrapS
      obtain ⟨v⟩ := w
      cases v <;> rfl

theorem pyGetD_accNameW_value (r : OppNode) :
    pyGetD (accNameW r.account) "value" (.jstr "") = .ok (accNameValue r.account) := by
  unfold accNameW accNameValue wrapSValue
  cases r.account with
  | none => rfl
  | some a =>
    obtain ⟨nm, ind⟩ := a
    cases nm with
    | none => rfl
    | some w =>
      unfold mkWrapS
      obtain ⟨v⟩ := w
      cases v <;> rfl

theorem pyGetD_ownNameW_value (r : OppNode) :
    pyGetD (ownNameW r.owner) "value" (.jstr "Unknown") = .ok (ownNameValue r.owner) := by
  unfold ownNameW ownNameValue wrapSValue
  cases r.owner with
  | none => rfl
  | some o =>
    obtain ⟨nm⟩ := o
    cases nm with
    | none => rfl
    | some w =>
      unfold mkWrapS
      obtain ⟨v⟩ := w
      cases v <;> rfl

theorem pyFloat_wrapNValue (x : Option WrapN) :
    ∃ q : ℚ, pyFloat (pyOr (wrapNValue x) (.jnum 0)) = .ok q := by
  cases x with
  | none => exact ⟨0, rfl⟩
  | some w =>
    cases hv : w.value with
    | absent => exact ⟨0, by simp [wrapNValue, hv, pyOr, jTruthy, pyFloat, bne_self_eq_false]⟩
    | null => exact ⟨0, by simp [wrapNValue, hv, pyOr, jTruthy, pyFloat]⟩
    | val q =>
      by_cases hq : q = 0
      · subst hq
        exact ⟨0, by simp [wrapNValue, hv, pyOr, jTruthy, pyFloat, bne_self_eq_false]⟩
      · have hb : (q != 0) = true := bne_iff_ne.mpr hq
        exact ⟨q, by simp [wrapNValue, hv, pyOr, jTruthy, pyFloat, hb]⟩

theorem jvalKey_wrapSValue (dflt : String) (x : Option WrapS) :
    ∃ k, jvalKey (wrapSValue dflt x) = .ok k := by
  cases x with
  | none => exact ⟨.kStr dflt, rfl⟩
  | some w =>
    cases hv : w.value with
    | absent => exact ⟨.kStr dflt, by simp [wrapSValue, hv, jvalKey]⟩
    | null => exact ⟨.kNull, by simp [wrapSValue, hv, jvalKey]⟩
    | val s => exact ⟨.kStr s, by simp [wrapSValue, hv, jvalKey]⟩

theorem jvalKey_accIndValue (x : Option AccountNode) :
    ∃ k, jvalKey (accIndValue x) = .ok k := by
  cases x with
  | none => exact ⟨.kStr "Unknown", rfl⟩
  | some a =>
    obtain ⟨k, hk⟩ := jvalKey_wrapSValue "Unknown" a.industry
    exact ⟨k, by simpa [accIndValue] using hk⟩

theorem jvalKey_ownNameValue (x : Option OwnerNode) :
    ∃ k, jvalKey (ownNameValue x) = .ok k := by
  cases x with
  | none => exact ⟨.kStr "Unknown", rfl⟩
  | some o =>
    obtain ⟨k, hk⟩ := jvalKey_wrapSValue "Unknown" o.name
    exact ⟨k, by simpa [ownNameValue] using hk⟩

theorem processHVEdge_mkEdge_ok (acc : HVAcc) (r : OppNode) :
    ∃ acc2, processHVEdge acc (mkEdge r) = .ok acc2 := by
  have hnode : pyIndex (mkEdge r) "node" = .ok (mkNode r) := rfl
  obtain ⟨amt, hamt⟩ := pyFloat_wrapNValue r.amount
  obtain ⟨prob, hprob⟩ := pyFloat_wrapNValue r.probability
  obtain ⟨sk, hsk⟩ := jvalKey_wrapSValue "Unknown" r.stageName
  obtain ⟨ok2, hok⟩ := jvalKey_ownNameValue r.owner
  obtain ⟨ik, hik⟩ := jvalKey_accIndValue r.account
  refine ⟨⟨acc.opportunities ++
      [⟨idJ r, wrapSValue "" r.name, amt, wrapNDisp r.amount, wrapSValue "" r.closeDate,
        wrapSValue "Unknown" r.stageName, prob, amt * (prob / 100),
        accNameValue r.account, accIndValue r.account, ownNameValue r.owner⟩],
    acc.total_pipeline_value + amt,
    acc.weighted_pipeline_value + amt * (prob / 100),
    bumpBreakdown acc.stage_breakdown sk amt,
    bumpBreakdown acc.owner_breakdown ok2 amt,
    bumpBreakdown acc.industry_breakdown ik amt⟩, ?_⟩
  simp only [processHVEdge, hnode, pyGetD_mkNode_Amount, pyGetD_amountWJ_value, hamt,
    pyGetD_mkNode_Probability, pyGetD_probWJ_value, hprob,
    pyGetD_mkNode_StageName, pyGetD_stageWJ_value,
    pyGetD_mkNode_Owner, pyGetD_ownerJ_name, pyGetD_ownNameW_value,
    pyGetD_mkNode_Account, pyGetD_accountJ_industry, pyGetD_accIndW_value,
    pyGetD_mkNode_Id, pyGetD_mkNode_Name, pyGetD_nameWJ_value,
    pyGetD_amountWJ_disp, pyGetD_mkNode_CloseDate, pyGetD_closeWJ_value,
    pyGetD_accountJ_name, pyGetD_accNameW_value,
    hsk, hok, hik, Bind.bind, Except.bind, pure, Except.pure]

theorem foldHVEdges_mkEdges_ok : ∀ (rs : List OppNode) (acc : HVAcc),
    ∃ acc2, foldHVEdges (rs.map mkEdge) acc = .ok acc2 := by
  intro rs
  induction rs with
  | nil =>
    intro acc
    exact ⟨acc, rfl⟩
  | cons r rest ih =>
    intro acc
    obtain ⟨acc2, h2⟩ := processHVEdge_mkEdge_ok acc r
    obtain ⟨acc3, h3⟩ := ih acc2
    exact ⟨acc3, by simp [foldHVEdges, Bind.bind, Except.bind, h2, h3]⟩

/-- C5 amended: the aggregation never raises on the empty edge list, where
every total is zero, every average is guarded to zero and every breakdown is
empty; and it never raises on any record whose keys may be absent and whose
wrapped leaf values may be null — defaults are substituted.  (Per the C5
counterexample, a wrapper or relation that is present with value null
instead raises `AttributeError`, which only the surrounding try/except turns
into a failure payload.) -/
theorem aggregation_total_on_defaultable_records :
    (∀ a : ℚ, processHVEdges a [] = .ok (mkHVReport a hvInit) ∧
      (mkHVReport a hvInit).pipeline_summary.total_opportunities = 0 ∧
      (mkHVReport a hvInit).pipeline_summary.total_pipeline_value = 0 ∧
      (mkHVReport a hvInit).pipeline_summary.weighted_pipeline_value = 0 ∧
      (mkHVReport a hvInit).pipeline_summary.average_deal_size = 0 ∧
      (mkHVReport a hvInit).pipeline_summary.average_probability = 0 ∧
      (mkHVReport a hvInit).stage_breakdown = [] ∧
      (mkHVReport a hvInit).opportunities = []) ∧
    (∀ (a : ℚ) (rs : List OppNode), ∃ rep, processHVEdges a (rs.map mkEdge) = .ok rep) := by
  constructor
  · intro a
    exact ⟨rfl, rfl, rfl, rfl, rfl, rfl, rfl, rfl⟩
  · intro a rs
    obtain ⟨acc, h⟩ := foldHVEdges_mkEdges_ok rs hvInit
    exact ⟨mkHVReport a acc, by simp [processHVEdges, Bind.bind, Except.bind, h, pure, Except.pure]⟩

theorem processHVEdges_total_in_org (a : ℚ) (edges : List JVal) (rep : HVReport)
    (h : processHVEdges a edges = .ok rep) :
    rep.filter_applied.total_in_org = 34 := by
  unfold processHVEdges at h
  cases hf : foldHVEdges edges hvInit with
  | ok acc =>
    rw [hf] at h
    simp only [Bind.bind, Except.bind, pure, Except.pure, Except.ok.injEq] at h
    subst h
    rfl
  | error e =>
    rw [hf] at h
    simp [Bind.bind, Except.bind] at h

/-- C10: whenever high_value_pipeline_analysis succeeds, the
`filter_applied.total_in_org` field equals the hard-coded constant 34,
whatever the arguments and the remote response (and its `totalCount`)
were. -/
theorem total_in_org_hardcoded_34 (min_amount : ℚ) (limit : Nat)
    (clientResult : Except PyError JVal) (rep : HVReport)
    (h : high_value_pipeline_analysis min_amount limit clientResult = .success rep) :
    rep.filter_applied.total_in_org = 34 := by
  unfold high_value_pipeline_analysis at h
  cases hcr : clientResult with
  | error e =>
    rw [hcr] at h
    simp [Bind.bind, Except.bind] at h
  | ok r =>
    rw [hcr] at h
    simp only [Bind.bind, Except.bind] at h
    cases hE : edgesOf "Opportunity" r with
    | error e =>
      rw [hE] at h
      simp [Bind.bind, Except.bind] at h
    | ok edges =>
      rw [hE] at h
      dsimp only at h
      cases hP : processHVEdges min_amount edges with
      | error e =>
        rw [hP] at h
        simp [Bind.bind, Except.bind] at h
      | ok rep2 =>
        rw [hP] at h
        simp only [Bind.bind, Except.bind, HVResult.success.injEq] at h
        subst h
        exact processHVEdges_total_in_org min_amount edges rep2 hP

/-- An empty but well-formed response whose totalCount is 5, not 34. -/
def emptyOppResp : JVal :=
  .jobj [("data", .jobj [("uiapi", .jobj [("query", .jobj [("Opportunity",
    .jobj [("edges", .jarr []), ("totalCount", .jnum 5)])])])])]

/-- Witness for the C10 theorem: a successful run over a response reporting
totalCount 5 still reports total_in_org 34. -/
theorem total_in_org_hardcoded_34_witness :
    high_value_pipeline_analysis 50000 50 (.ok emptyOppResp) =
      .success (mkHVReport 50000 hvInit) ∧
    (mkHVReport 50000 hvInit).filter_applied.total_in_org = 34 :=
  ⟨rfl, total_in_org_hardcoded_34 50000 50 (.ok emptyOppResp) (mkHVReport 50000 hvInit) rfl⟩

/-- SalesforceClient.get_opportunity (src/client.py lines 64-106): extracts
the first node of the response; the `except` clause logs and re-raises. -/
def get_opportunity_client (resp : Except PyError JVal) : Except PyError (Option JVal) := do
  let r ← resp
  let edges ← edgesOf "Opportunity" r
  match edges with
  | [] => pure none
  | e :: _ => do
    let node ← pyIndex e "node"
    pure (some node)

/-- The get_opportunity tool (src/tools/opportunities.py lines 59-63): a
bare delegation to the client with no try/except of its own. -/
def get_opportunity_tool (resp : Except PyError JVal) : Except PyError (Option JVal) :=
  get_opportunity_client resp

/-- C1 counterexample: the get_opportunity tool lets a client exception
escape to its caller unchanged — it does not return a
`success: false / error / error_type` payload. -/
theorem get_opportunity_tool_propagates :
    get_opportunity_tool (.error ⟨"Exception", "API request failed: 500"⟩) =
      .error ⟨"Exception", "API request failed: 500"⟩ := by
  rfl

/-- One processed opportunity of `query_opportunities`
(src/tools/opportunities.py lines 170-186). -/
structure QOOpp where
  id : JVal
  name : JVal
  amount : JVal
  amount_display : JVal
  close_date : JVal
  stage : JVal
  probability : JVal
  account_id : JVal
  account_name : JVal
  owner_id : JVal
  owner_name : JVal

/-- Python `total_value += amount`, starting from the integer 0: adding a
non-numeric value raises `TypeError`. -/
def pyNumAdd (acc : ℚ) (v : JVal) : Except PyError ℚ :=
  match v with
  | .jnum q => .ok (acc + q)
  | .jbool b => .ok (acc + (if b then 1 else 0))
  | _ => .error ⟨"TypeError", "unsupported operand type for +"⟩

/-- Loop body of `query_opportunities` (src/tools/opportunities.py lines
166-189): field lookups in source order, then the append and the running
total. -/
def processQOEdge (acc : List QOOpp × ℚ) (edge : JVal) :
    Except PyError (List QOOpp × ℚ) := do
  let node ← pyGetD edge "node" (.jobj [])
  let amountW ← pyGetD node "Amount" (.jobj [])
  let amountV ← pyGetD amountW "value" (.jnum 0)
  let amount := pyOr amountV (.jnum 0)
  let idV ← pyGetD node "Id" .jnull
  let nameW ← pyGetD node "Name" (.jobj [])
  let nameV ← pyGetD nameW "value" (.jstr "")
  let amountDisp ← pyGetD amountW "displayValue" (.jstr "")
  let closeW ← pyGetD node "CloseDate" (.jobj [])
  let closeV ← pyGetD closeW "value" (.jstr "")
  let stageW ← pyGetD node "StageName" (.jobj [])
  let stageV ← pyGetD stageW "value" (.jstr "")
  let probW ← pyGetD node "Probability" (.jobj [])
  let probV ← pyGetD probW "value" (.jnum 0)
  let acctW ← pyGetD node "Account" (.jobj [])
  let acctId ← pyGetD acctW "Id" .jnull
  let acctNameW ← pyGetD acctW "Name" (.jobj [])
  let acctName ← pyGetD acctNameW "value" (.jstr "")
  let ownW ← pyGetD node "Owner" (.jobj [])
  let ownId ← pyGetD ownW "Id" .jnull
  let ownNameW ← pyGetD ownW "Name" (.jobj [])
  let ownName ← pyGetD ownNameW "value" (.jstr "")
  let total ← pyNumAdd acc.2 amount
  pure (acc.1 ++
    [⟨idV, nameV, amount, amountDisp, closeV, stageV, probV, acctId, acctName,
      ownId, ownName⟩], total)

/-- The `for edge in edges` loop of `query_opportunities`. -/
def foldQOEdges : List JVal → (List QOOpp × ℚ) → Except PyError (List QOOpp × ℚ)
  | [], acc => .ok acc
  | e :: es, acc => do
    let acc2 ← processQOEdge acc e
    foldQOEdges es acc2

/-- Success payload of `query_opportunities` (lines 191-207), without the
wall-clock timestamp. -/
structure QOBody where
  total_opportunities : Nat
  total_count_in_org : JVal
  total_value : ℚ
  average_deal_size : ℚ
  time_period : String
  stage : String
  min_amount : Option ℚ
  limit : Nat
  opportunities : List QOOpp

/-- Response processing of `query_opportunities` (lines 157-207): extract
edges and totalCount, run the loop, then assemble the summary with the
division guard of line 197. -/
def processQOBody (time_period stage : String) (min_amount : Option ℚ) (limit : Nat)
    (r : JVal) : Except PyError QOBody := do
  let edges ← edgesOf "Opportunity" r
  let d ← pyGetD r "data" (.jobj [])
  let u ← pyGetD d "uiapi" (.jobj [])
  let q ← pyGetD u "query" (.jobj [])
  let o ← pyGetD q "Opportunity" (.jobj [])
  let totalCount ← pyGetD o "totalCount" (.jnum 0)
  let acc ← foldQOEdges edges ([], 0)
  pure ⟨acc.1.length, totalCount, acc.2,
    (if acc.1.length ≠ 0 then acc.2 / (acc.1.length : ℚ) else 0),
    time_period, stage, min_amount, limit, acc.1⟩

/-- Result of the query_opportunities tool. -/
inductive QOResult where
  | success (body : QOBody)
  | invalidPeriod (error : String) (valid_options : List String)
  | failure (error : String) (error_type : String)

/-- The query_opportunities tool (src/tools/opportunities.py lines 78-214):
the invalid-period payload is returned before any client call; the client
call and the response processing sit inside try/except, so any exception
there becomes a failure payload with `str(e)` and `type(e).__name__`.  The
WHERE conditions the tool interpolates are modelled by `periodCondition`
and `stageEqCondition`. -/
def query_opportunities_tool (time_period stage : String) (min_amount : Option ℚ)
    (limit : Nat) (now : Date) (clientResult : Except PyError JVal) : QOResult :=
  match periodCondition time_period now with
  | .error (msg, opts) => .invalidPeriod msg opts
  | .ok _dateConds =>
    match (do
        let r ← clientResult
        processQOBody time_period stage min_amount limit r) with
    | .ok body => .success body
    | .error e => .failure e.msg e.kind

/-- One processed account of `query_accounts`
(src/tools/accounts.py lines 94-109). -/
structure QAAccount where
  id : JVal
  name : JVal
  account_type : JVal
  industry : JVal
  annual_revenue : JVal
  annual_revenue_display : JVal
  employees : JVal
  phone : JVal
  website : JVal
  billing_city : JVal
  billing_state : JVal
  billing_country : JVal

/-- Loop body of `query_accounts` (src/tools/accounts.py lines 90-111). -/
def processQAEdge (acc : List QAAccount) (edge : JVal) :
    Except PyError (List QAAccount) := do
  let node ← pyGetD edge "node" (.jobj [])
  let billing ← pyGetD node "BillingAddress" (.jobj [])
  let idV ← pyGetD node "Id" .jnull
  let nameW ← pyGetD node "Name" (.jobj [])
  let nameV ← pyGetD nameW "value" (.jstr "")
  let typeW ← pyGetD node "Type" (.jobj [])
  let typeV ← pyGetD typeW "value" (.jstr "")
  let indW ← pyGetD node "Industry" (.jobj [])
  let indV ← pyGetD indW "value" (.jstr "")
  let revW ← pyGetD node "AnnualRevenue" (.jobj [])
  let revV ← pyGetD revW "value" .jnull
  let revDisp ← pyGetD revW "displayValue" (.jstr "")
  let empW ← pyGetD node "NumberOfEmployees" (.jobj [])
  let empV ← pyGetD empW "value" .jnull
  let phoneW ← pyGetD node "Phone" (.jobj [])
  let phoneV ← pyGetD phoneW "value" (.jstr "")
  let webW ← pyGetD node "Website" (.jobj [])
  let webV ← pyGetD webW "value" (.jstr "")
  let cityW ← pyGetD billing "BillingCity" (.jobj [])
  let cityV ← pyGetD cityW "value" (.jstr "")
  let stateW ← pyGetD billing "BillingState" (.jobj [])
  let stateV ← pyGetD stateW "value" (.jstr "")
  let countryW ← pyGetD billing "BillingCountry" (.jobj [])
  let countryV ← pyGetD countryW "value" (.jstr "")
  pure (acc ++
    [⟨idV, nameV, typeV, indV, revV, revDisp, empV, phoneV, webV, cityV,
      stateV, countryV⟩])

/-- The `for edge in edges` loop of `query_accounts`. -/
def foldQAEdges : List JVal → List QAAccount → Except PyError (List QAAccount)
  | [], acc => .ok acc
  | e :: es, acc => do
    let acc2 ← processQAEdge acc e
    foldQAEdges es acc2

/-- Success payload of `query_accounts` (lines 113-122), without the
wall-clock timestamp; `filter_applied` is None when no industry filter was
given. -/
structure QABody where
  total_accounts : Nat
  total_count_in_org : JVal
  filter_applied : Option String
  accounts : List QAAccount

/-- Result of the query_accounts tool. -/
inductive QAResult where
  | success (body : QABody)
  | failure (error : String) (error_type : String)

/-- The query_accounts tool (src/tools/accounts.py lines 28-129): the client
call and the response processing sit inside try/except; any exception
becomes a failure payload.  The industry WHERE clause it interpolates is
modelled by `industryWhereClause`. -/
def query_accounts_tool (limit : Nat) (industry : String)
    (clientResult : Except PyError JVal) : QAResult :=
  match (do
      let r ← clientResult
      let edges ← edgesOf "Account" r
      let d ← pyGetD r "data" (.jobj [])
      let u ← pyGetD d "uiapi" (.jobj [])
      let q ← pyGetD u "query" (.jobj [])
      let o ← pyGetD q "Account" (.jobj [])
      let totalCount ← pyGetD o "totalCount" (.jnum 0)
      let accounts ← foldQAEdges edges []
      pure (⟨accounts.length, totalCount,
        (if industry ≠ "" then some industry else none), accounts⟩ : QABody)) with
  | .ok body => .success body
  | .error e => .failure e.msg e.kind

/-- C1 amended: the tools whose body sits in try/except
(query_opportunities, query_accounts and the business-analysis tools)
return the structured `success: false / error / error_type` payload for
every client exception, while the plain delegating tools (get_opportunity
and its siblings) re-raise client exceptions to their caller. -/
theorem wrapped_tools_return_failure_payload :
    (∀ (a : ℚ) (lim : Nat) (e : PyError),
      high_value_pipeline_analysis a lim (.error e) = .failure e.msg e.kind) ∧
    (∀ (tp st : String) (ma : Option ℚ) (lim : Nat) (now : Date) (e : PyError),
      (∃ conds, periodCondition tp now = .ok conds) →
      query_opportunities_tool tp st ma lim now (.error e) = .failure e.msg e.kind) ∧
    (∀ (lim : Nat) (ind : String) (e : PyError),
      query_accounts_tool lim ind (.error e) = .failure e.msg e.kind) ∧
    (∀ e : PyError, get_opportunity_tool (.error e) = .error e) := by
  refine ⟨fun a lim e => rfl, ?_, fun lim ind e => rfl, fun e => rfl⟩
  intro tp st ma lim now e hconds
  obtain ⟨conds, hconds⟩ := hconds
  unfold query_opportunities_tool
  rw [hconds]
  rfl

/-- Witness for the C1 amended theorem at concrete inputs. -/
theorem wrapped_tools_return_failure_payload_witness :
    high_value_pipeline_analysis 50000 50 (.error ⟨"Exception", "boom"⟩) =
      .failure "boom" "Exception" ∧
    query_opportunities_tool "last_quarter" "" none 50 ⟨2025, 5, 15⟩
      (.error ⟨"Exception", "boom"⟩) = .failure "boom" "Exception" ∧
    query_accounts_tool 50 "" (.error ⟨"Exception", "boom"⟩) =
      .failure "boom" "Exception" ∧
    get_opportunity_tool (.error ⟨"Exception", "boom"⟩) =
      .error ⟨"Exception", "boom"⟩ :=
  ⟨wrapped_tools_return_failure_payload.1 50000 50 ⟨"Exception", "boom"⟩,
   wrapped_tools_return_failure_payload.2.1 "last_quarter" "" none 50 ⟨2025, 5, 15⟩
     ⟨"Exception", "boom"⟩ ⟨_, rfl⟩,
   wrapped_tools_return_failure_payload.2.2.1 50 "" ⟨"Exception", "boom"⟩,
   wrapped_tools_return_failure_payload.2.2.2 ⟨"Exception", "boom"⟩⟩
